import Mathlib

/-!
Shallow embedding of the trinomial-tree option-pricing library
(`pricing_library/`: `utils.py`, `market.py`, `option.py`, `node.py`,
`trinomial_tree.py`), together with theorems settling the specification
claims about it.

Modelling conventions: floating-point arithmetic is modelled by exact real
arithmetic over `ℝ`; calendar dates are modelled as day counts (`ℤ` for the
whole-day pricing and maturity dates, `ℚ` for intermediate grid dates, which
are fractional when `delta_t * 365` is not an integer).  Python's
`ZeroDivisionError` and `AssertionError` in the pricing entry point are
modelled with `Except String`.
-/

noncomputable section

/-- `market.py` lines 5-22, `class MarketData` (the rest of the package
imports it under the name `Market`). -/
structure MarketData where
  interest_rate : ℝ
  volatility : ℝ
  spot_price : ℝ
  dividend_price : ℝ
  dividend_ex_date : ℚ

/-- `option.py` line 17: the option kind literal `"call" | "put"`. -/
inductive OptionType
  | call
  | put
  deriving DecidableEq

/-- `option.py` line 18: the exercise style literal `"us" | "eu"`. -/
inductive ExerciseType
  | us
  | eu
  deriving DecidableEq

/-- `option.py` lines 6-20, `class Option` (renamed here because `Option` is
taken in Lean). -/
structure OptionContract where
  option_type : OptionType
  exercise_type : ExerciseType
  strike_price : ℝ
  maturity_date : ℤ

/-- `Option.payoff`, option.py lines 22-26. -/
def OptionContract.payoff (o : OptionContract) (spot : ℝ) : ℝ :=
  match o.option_type with
  | .call => max (spot - o.strike_price) 0
  | .put => max (o.strike_price - spot) 0

/-- utils.py lines 15-16. -/
def calculate_discount_factor (interest_rate delta_t : ℝ) : ℝ :=
  Real.exp (-interest_rate * delta_t)

/-- utils.py lines 19-22. -/
def calculate_forward_price (spot_price interest_rates delta_t : ℝ) : ℝ :=
  spot_price * Real.exp (interest_rates * delta_t)

/-- utils.py lines 25-26 (with the default `factor = 3` inlined; all call
sites use the default). -/
def calculate_alpha (volatility delta_t : ℝ) : ℝ :=
  Real.exp (volatility * Real.sqrt (3 * delta_t))

/-- utils.py lines 29-36. -/
def calculate_variance (spot_price interest_rate volatility delta_t : ℝ) : ℝ :=
  spot_price ^ 2 * Real.exp (2 * interest_rate * delta_t) *
    (Real.exp (volatility ^ 2 * delta_t) - 1)

/-- utils.py lines 39-46.  In Python the division raises `ZeroDivisionError`
when the denominator `(1 - alpha) * (alpha⁻² - 1)` is zero (i.e. `alpha = 1`);
in the real-number embedding division by zero yields `0`. -/
def calculate_down_probability (forward_price esperance variance alpha : ℝ) : ℝ :=
  (forward_price ^ (-2 : ℤ) * (variance + esperance ^ 2) - 1 -
      (alpha + 1) * (forward_price ^ (-1 : ℤ) * esperance - 1)) /
    ((1 - alpha) * (alpha ^ (-2 : ℤ) - 1))

/-- utils.py lines 49-50. -/
def calculate_up_probability (down_probability alpha : ℝ) : ℝ :=
  down_probability / alpha

/-- utils.py lines 53-54. -/
def calculate_mid_probability (up_probability down_probability : ℝ) : ℝ :=
  1 - (down_probability + up_probability)

/-- The per-node numeric fields computed by `Node.__init__` (node.py lines
26-57) and `Node.__calculate_probabilities` (node.py lines 59-90). -/
structure NodeData where
  spot_price : ℝ
  esperance : ℝ
  forward_price : ℝ
  up_price : ℝ
  down_price : ℝ
  variance : ℝ
  p_down : ℝ
  p_up : ℝ
  p_mid : ℝ

/-- The dividend-window test of node.py lines 40-45: the ex-dividend date
lies in `[time_step, time_step + delta_t * n_days]` with `n_days = 365`. -/
def straddlesDividend (mkt : MarketData) (delta_t time_step : ℚ) : Prop :=
  time_step + delta_t * 365 ≥ mkt.dividend_ex_date ∧ mkt.dividend_ex_date ≥ time_step

instance (mkt : MarketData) (delta_t time_step : ℚ) :
    Decidable (straddlesDividend mkt delta_t time_step) :=
  instDecidableAnd

/-- `Node.__init__` (node.py lines 26-57) together with the inlined
`Node.__calculate_probabilities` (lines 59-90).  Two facts of the source are
modelled verbatim: the constructor calls `__calculate_probabilities()` with
its default `with_dividend = False` on both branches of the dividend test
(lines 51 and 54), so `p_up` is always `calculate_up_probability`; and line
74-76 passes `(self.esperance, self.forward_price, ...)` into the parameters
`(forward_price, esperance, ...)` of `calculate_down_probability`. -/
def mkNodeData (mkt : MarketData) (delta_t : ℚ) (alpha : ℝ) (spot : ℝ)
    (time_step : ℚ) : NodeData :=
  let fwd0 := calculate_forward_price spot mkt.interest_rate (delta_t : ℝ)
  let esperance := fwd0
  let forward :=
    if straddlesDividend mkt delta_t time_step then fwd0 - mkt.dividend_price else fwd0
  let variance :=
    calculate_variance spot mkt.interest_rate mkt.volatility (delta_t : ℝ)
  let p_down := calculate_down_probability esperance forward variance alpha
  let p_up := calculate_up_probability p_down alpha
  let p_mid := calculate_mid_probability p_up p_down
  ⟨spot, esperance, forward, alpha * forward, forward / alpha, variance,
    p_down, p_up, p_mid⟩

/-- The lattice as consumed by the backward-induction pass: a node with its
numeric fields and either no children (leaf) or its three children.  The
built lattice is recombining (a DAG); for valuation we use its unfolding to
a tree, which `Node.price` computes the same values on (memoization in
node.py line 104 only avoids re-evaluating shared subtrees, it never changes
a value: `option_price` starts `None` and the computation is
deterministic). -/
inductive PTree
  | leaf (nd : NodeData)
  | branch (nd : NodeData) (up mid down : PTree)

/-- `Node.price` (node.py lines 93-114): at a leaf the value is the payoff
at the node's spot; at an interior node the discounted probability-weighted
value of the children; in both cases an American option takes the max with
the immediate payoff (line 112-113). -/
def PTree.price (df : ℝ) (o : OptionContract) : PTree → ℝ
  | .leaf nd =>
      let v := o.payoff nd.spot_price
      if o.exercise_type = .us then max v (o.payoff nd.spot_price) else v
  | .branch nd up mid down =>
      let v := df * (nd.p_up * up.price df o + nd.p_mid * mid.price df o +
        nd.p_down * down.price df o)
      if o.exercise_type = .us then max v (o.payoff nd.spot_price) else v

/-- The recombining lattice below one node, unfolded to a tree:
`__compute_next_nodes` (trinomial_tree.py lines 113-147) creates the children
at spots `forward_price`, `up_price`, `down_price` of the parent, one
generation date later; the upward/downward walks create the outer nodes at
the same spots as this unfolding shares. -/
def buildSubtree (mkt : MarketData) (delta_t : ℚ) (alpha : ℝ) :
    ℕ → ℝ → ℚ → PTree
  | 0, spot, ts => .leaf (mkNodeData mkt delta_t alpha spot ts)
  | h + 1, spot, ts =>
      let nd := mkNodeData mkt delta_t alpha spot ts
      .branch nd
        (buildSubtree mkt delta_t alpha h nd.up_price (ts + delta_t * 365))
        (buildSubtree mkt delta_t alpha h nd.forward_price (ts + delta_t * 365))
        (buildSubtree mkt delta_t alpha h nd.down_price (ts + delta_t * 365))

/-- The value computed by `TrinomialTree.price` (trinomial_tree.py lines
39-64) once past its assertion: `delta_t = abs(((maturity - pricing).days /
n_steps) / 365)`, `alpha`, `discount_factor`, build, then `root.price(opt)`.
A non-positive `n_steps` makes `range(n_steps)` empty, so the tree is the
bare root (`Int.toNat` sends negatives to `0`). -/
def treeValue (mkt : MarketData) (pricing_date : ℤ) (n_steps : ℤ)
    (o : OptionContract) : ℝ :=
  let delta_t : ℚ := |((o.maturity_date - pricing_date : ℚ) / n_steps) / 365|
  let alpha := calculate_alpha mkt.volatility (delta_t : ℝ)
  let df := calculate_discount_factor mkt.interest_rate (delta_t : ℝ)
  (buildSubtree mkt delta_t alpha n_steps.toNat mkt.spot_price
      (pricing_date : ℚ)).price df o

/-- Every node constructed while building the (sub)lattice has a nonzero
`esperance`.  `Node.__init__` runs `__calculate_probabilities` on every
constructed node, and `calculate_down_probability` receives the node's
`esperance` as its *first* argument (the node.py line 74-76 swap), raising
it to the power `-2`: Python raises `ZeroDivisionError` at the first node
whose `esperance` is zero.  The unfolding covers the same spot values as
the recombining lattice, so this predicate holds of the unfolding iff no
constructed node trips. -/
def PTree.esperancesNonzero : PTree → Prop
  | .leaf nd => nd.esperance ≠ 0
  | .branch nd u m d =>
      nd.esperance ≠ 0 ∧ u.esperancesNonzero ∧ m.esperancesNonzero ∧
      d.esperancesNonzero

open Classical in
/-- `TrinomialTree.price` (trinomial_tree.py lines 39-64) as seen by the
caller.  The assertion at lines 49-51 raises `AssertionError` when the
pricing date is not before maturity; with `n_steps = 0` the `delta_t`
computation at lines 52-54 divides by `n_steps` and raises
`ZeroDivisionError: division by zero`; no check rejects a negative
`n_steps`.  Building the lattice then runs `Node.__init__` on every node
(the root included, even when `range(n_steps)` is empty), whose probability
computation divides: `calculate_down_probability` raises
`ZeroDivisionError: 0.0 cannot be raised to a negative power` at a node
whose `esperance` is zero (its numerator `forward_price ** (-2)` — the
swapped `esperance` — evaluates first), and
`ZeroDivisionError: float division by zero` when `alpha = 1` makes the
moment-matching divisor `(1 - alpha) * (alpha ** (-2) - 1)` zero.  The
root is constructed first, so its zero-`esperance` test precedes the
`alpha` test, and when `alpha ≠ 1` the only remaining error is a zero
`esperance` at a deeper node.  A run past every guard returns the root's
backward-induction value. -/
def TrinomialTree.price (mkt : MarketData) (pricing_date : ℤ) (n_steps : ℤ)
    (o : OptionContract) : Except String ℝ :=
  if pricing_date < o.maturity_date then
    if n_steps = 0 then .error "ZeroDivisionError: division by zero"
    else
      let delta_t : ℚ := |((o.maturity_date - pricing_date : ℚ) / n_steps) / 365|
      if calculate_forward_price mkt.spot_price mkt.interest_rate (delta_t : ℝ) = 0
      then .error "ZeroDivisionError: 0.0 cannot be raised to a negative power"
      else if calculate_alpha mkt.volatility (delta_t : ℝ) = 1 then
        .error "ZeroDivisionError: float division by zero"
      else if (buildSubtree mkt delta_t
          (calculate_alpha mkt.volatility (delta_t : ℝ)) n_steps.toNat
          mkt.spot_price (pricing_date : ℚ)).esperancesNonzero then
        .ok (treeValue mkt pricing_date n_steps o)
      else .error "ZeroDivisionError: 0.0 cannot be raised to a negative power"
  else .error "AssertionError: Pricing date must be before maturity date."

/-- Python `round(x, n)` for possibly negative `n`.  (Mathlib `round` rounds
halves up whereas Python rounds halves to even; they agree off exact ties,
and no value in this development hits a tie.) -/
def pyRound (x : ℝ) (n : ℤ) : ℝ :=
  (round (x * (10 : ℝ) ^ n) : ℝ) / (10 : ℝ) ^ n

/-- `int(log10(tolerance))` of node.py line 121 for `0 < tolerance < 1`:
truncation toward zero of a negative logarithm is its ceiling. -/
def rounding_factor (tolerance : ℚ) : ℤ := Int.clog 10 tolerance

/-- `Node.__check_conditions` (node.py lines 117-144), as the proposition
"no assert fires": the tolerance bounds (lines 118-120); the probability sum
compared to `1` by exact equality (lines 122-125); and the two moment checks
compared after `round(·, rounding_factor)` (lines 126-144). -/
def checkConditions (nd : NodeData) (tolerance : ℚ) : Prop :=
  (0 < tolerance ∧ tolerance < 1) ∧
  nd.p_down + nd.p_up + nd.p_mid = 1 ∧
  pyRound (nd.down_price * nd.p_down + nd.forward_price * nd.p_mid +
      nd.up_price * nd.p_up) (rounding_factor tolerance) =
    pyRound nd.forward_price (rounding_factor tolerance) ∧
  pyRound (nd.p_down * nd.down_price ^ 2 + nd.p_mid * nd.forward_price ^ 2 +
      nd.p_up * nd.up_price ^ 2) (rounding_factor tolerance) =
    pyRound (nd.variance + nd.esperance ^ 2) (rounding_factor tolerance)

/-- All branch probabilities stored in the (sub)lattice lie in `[0, 1]`. -/
def PTree.probsInUnit : PTree → Prop
  | .leaf _ => True
  | .branch nd up mid down =>
      (0 ≤ nd.p_up ∧ nd.p_up ≤ 1) ∧ (0 ≤ nd.p_mid ∧ nd.p_mid ≤ 1) ∧
      (0 ≤ nd.p_down ∧ nd.p_down ≤ 1) ∧
      up.probsInUnit ∧ mid.probsInUnit ∧ down.probsInUnit

/-! ### The generation-by-generation builder

`TrinomialTree.__build_tree` keeps one generation alive at a time: the trunk
node plus the chain of `node_up` siblings above it and `node_down` siblings
below it.  We model a generation as the trunk plus those two chains (ordered
outward from the trunk), and a node as its numeric data tagged with a
creation index (mirroring the `Node.nb_nodes` counter of node.py line 22,
incremented once per constructor call, so distinct creations have distinct
ids). -/

/-- One lattice node of the builder: creation index plus numeric data. -/
structure BNode where
  id : ℕ
  data : NodeData

/-- One generation: the trunk node, the chain of siblings above it and the
chain below it, both ordered from the trunk outward. -/
structure TreeGen where
  trunk : BNode
  ups : List BNode
  downs : List BNode

/-- The upward while-loop of `__construct_next_generation` (trinomial_tree.py
lines 100-103) with `__compute_next_nodes_upward` (lines 149-164): each upper
neighbour reuses its lower sibling's mid child as its own lower child and its
lower sibling's upper child as its own mid child, and constructs exactly one
new node, at its `up_price`; `c` is the creation counter. -/
def upsChildren (mkt : MarketData) (dt : ℚ) (a : ℝ) (date : ℚ) :
    ℕ → List BNode → List BNode
  | _, [] => []
  | c, u :: rest =>
      ⟨c, mkNodeData mkt dt a u.data.up_price date⟩ ::
        upsChildren mkt dt a date (c + 1) rest

/-- The downward while-loop (trinomial_tree.py lines 105-109 with lines
166-179), symmetric to `upsChildren`: one new node per lower neighbour, at
its `down_price`. -/
def downsChildren (mkt : MarketData) (dt : ℚ) (a : ℝ) (date : ℚ) :
    ℕ → List BNode → List BNode
  | _, [] => []
  | c, u :: rest =>
      ⟨c, mkNodeData mkt dt a u.data.down_price date⟩ ::
        downsChildren mkt dt a date (c + 1) rest

/-- `__construct_next_generation` (trinomial_tree.py lines 82-111):
`__compute_next_nodes` (lines 113-147) creates the trunk's three children
(mid first, then upper, then lower — creation order fixes the ids), then the
two walks create one node per neighbour.  Returns the new generation (whose
trunk is the old trunk's mid child) and the updated creation counter. -/
def constructNextGeneration (mkt : MarketData) (dt : ℚ) (a : ℝ) (g : TreeGen)
    (date : ℚ) (c : ℕ) : TreeGen × ℕ :=
  let mid : BNode := ⟨c, mkNodeData mkt dt a g.trunk.data.forward_price date⟩
  let up : BNode := ⟨c + 1, mkNodeData mkt dt a g.trunk.data.up_price date⟩
  let down : BNode := ⟨c + 2, mkNodeData mkt dt a g.trunk.data.down_price date⟩
  let newUps := upsChildren mkt dt a date (c + 3) g.ups
  let newDowns := downsChildren mkt dt a date (c + 3 + g.ups.length) g.downs
  (⟨mid, up :: newUps, down :: newDowns⟩, c + 3 + g.ups.length + g.downs.length)

/-- `__build_tree` (trinomial_tree.py lines 66-80) stopped after `k`
generations: returns generation `k`, the creation counter (the number of
`Node(...)` calls so far) and the generation's date. -/
def buildGen (mkt : MarketData) (dt : ℚ) (a : ℝ) (pricing : ℚ) :
    ℕ → TreeGen × ℕ × ℚ
  | 0 => (⟨⟨0, mkNodeData mkt dt a mkt.spot_price pricing⟩, [], []⟩, 1, pricing)
  | k + 1 =>
      let r := buildGen mkt dt a pricing k
      let date := r.2.2 + dt * 365
      let gc := constructNextGeneration mkt dt a r.1 date r.2.1
      (gc.1, gc.2, date)

/-- The creation indices of a generation's nodes. -/
def genIds (g : TreeGen) : List ℕ :=
  g.trunk.id :: (g.ups.map BNode.id ++ g.downs.map BNode.id)

/-- The number of live nodes in a generation. -/
def genSize (g : TreeGen) : ℕ := 1 + g.ups.length + g.downs.length

/-! ### Concrete inputs used by counterexamples and witnesses -/

/-- Zero-rate market with a dividend of 50 whose ex-date is the pricing
date: with maturity 365 days and 3 steps, `delta_t = 1/3` and the root node
straddles the ex-dividend date. -/
def mktDividend : MarketData := ⟨0, 1, 100, 50, 0⟩

/-- The root node built on `mktDividend` with `delta_t = 1/3`: it straddles
the ex-dividend date (`0 ≤ 0 ≤ 0 + (1/3)·365`), so the dividend branch of
`Node.__init__` runs. -/
def dividendNode : NodeData :=
  mkNodeData mktDividend (1/3) (calculate_alpha 1 ((1/3 : ℚ) : ℝ)) 100 0

/-- Dividend-free market with extreme volatility `7/6` and rate `-4/3`: with
maturity 2190 days and 2 steps, `delta_t = 3`, `alpha = exp(7/2)` and
`p_mid < 0`. -/
def mktExtreme : MarketData := ⟨-4/3, 7/6, 1, 0, -5⟩

/-- Call with strike `1/100` and maturity in 2190 days, in both exercise
styles. -/
def extremeCall (et : ExerciseType) : OptionContract := ⟨.call, et, 1/100, 2190⟩

/-- The common `p_down` of every node of the `mktExtreme` lattice
(`alpha = exp(7/2)`, `volatility² · delta_t = 49/12`; the value ≈ 1.818). -/
def extremeP : ℝ :=
  (Real.exp (49/12) - 1) /
    ((1 - Real.exp (7/2)) * (Real.exp (7/2) ^ (-2 : ℤ) - 1))

/-- The common `p_up = p_down / alpha` of the `mktExtreme` lattice (≈ 0.0549). -/
def extremePu : ℝ := extremeP / Real.exp (7/2)

/-- The common `p_mid = 1 - (p_down + p_up)` of the `mktExtreme` lattice
(≈ -0.873: the unchecked spacing makes it negative). -/
def extremePm : ℝ := 1 - (extremeP + extremePu)

/-- Unremarkable dividend-free market. -/
def mktPlain : MarketData := ⟨1/20, 1/5, 100, 0, -1⟩

/-- European call, strike 90, maturity in 365 days. -/
def plainCall : OptionContract := ⟨.call, .eu, 90, 365⟩

/-- European call, strike 80, maturity in 365 days. -/
def plainCall80 : OptionContract := ⟨.call, .eu, 80, 365⟩

end

section NodeFieldLemmas

lemma mkNodeData_spot (mkt : MarketData) (dt : ℚ) (a s : ℝ) (ts : ℚ) :
    (mkNodeData mkt dt a s ts).spot_price = s := rfl

lemma mkNodeData_esperance (mkt : MarketData) (dt : ℚ) (a s : ℝ) (ts : ℚ) :
    (mkNodeData mkt dt a s ts).esperance =
      calculate_forward_price s mkt.interest_rate (dt : ℝ) := rfl

lemma mkNodeData_variance (mkt : MarketData) (dt : ℚ) (a s : ℝ) (ts : ℚ) :
    (mkNodeData mkt dt a s ts).variance =
      calculate_variance s mkt.interest_rate mkt.volatility (dt : ℝ) := rfl

lemma mkNodeData_forward_straddle (mkt : MarketData) (dt : ℚ) (a s : ℝ) (ts : ℚ)
    (h : straddlesDividend mkt dt ts) :
    (mkNodeData mkt dt a s ts).forward_price =
      calculate_forward_price s mkt.interest_rate (dt : ℝ) - mkt.dividend_price := by
  simp only [mkNodeData, if_pos h]

lemma mkNodeData_forward_no_straddle (mkt : MarketData) (dt : ℚ) (a s : ℝ) (ts : ℚ)
    (h : ¬ straddlesDividend mkt dt ts) :
    (mkNodeData mkt dt a s ts).forward_price =
      calculate_forward_price s mkt.interest_rate (dt : ℝ) := by
  simp only [mkNodeData, if_neg h]

lemma mkNodeData_up_price (mkt : MarketData) (dt : ℚ) (a s : ℝ) (ts : ℚ) :
    (mkNodeData mkt dt a s ts).up_price =
      a * (mkNodeData mkt dt a s ts).forward_price := rfl

lemma mkNodeData_down_price (mkt : MarketData) (dt : ℚ) (a s : ℝ) (ts : ℚ) :
    (mkNodeData mkt dt a s ts).down_price =
      (mkNodeData mkt dt a s ts).forward_price / a := rfl

lemma mkNodeData_p_down (mkt : MarketData) (dt : ℚ) (a s : ℝ) (ts : ℚ) :
    (mkNodeData mkt dt a s ts).p_down =
      calculate_down_probability (mkNodeData mkt dt a s ts).esperance
        (mkNodeData mkt dt a s ts).forward_price
        (mkNodeData mkt dt a s ts).variance a := rfl

lemma mkNodeData_p_up (mkt : MarketData) (dt : ℚ) (a s : ℝ) (ts : ℚ) :
    (mkNodeData mkt dt a s ts).p_up = (mkNodeData mkt dt a s ts).p_down / a := rfl

lemma mkNodeData_p_mid (mkt : MarketData) (dt : ℚ) (a s : ℝ) (ts : ℚ) :
    (mkNodeData mkt dt a s ts).p_mid =
      1 - ((mkNodeData mkt dt a s ts).p_down + (mkNodeData mkt dt a s ts).p_up) := rfl

/-- Off the dividend window the two arguments that node.py line 74-76 swaps
are equal, and `calculate_down_probability` collapses to the classical
moment-matching value `(exp(volatility² Δt) - 1) / ((1-α)(α⁻² - 1))`. -/
lemma mkNodeData_p_down_no_straddle (mkt : MarketData) (dt : ℚ) (a s : ℝ) (ts : ℚ)
    (h : ¬ straddlesDividend mkt dt ts) (hs : s ≠ 0) :
    (mkNodeData mkt dt a s ts).p_down =
      (Real.exp (mkt.volatility ^ 2 * (dt : ℝ)) - 1) /
        ((1 - a) * (a ^ (-2 : ℤ) - 1)) := by
  have h2 : Real.exp (2 * mkt.interest_rate * (dt : ℝ)) =
      Real.exp (mkt.interest_rate * (dt : ℝ)) *
        Real.exp (mkt.interest_rate * (dt : ℝ)) := by
    rw [← Real.exp_add]; ring_nf
  have hE : Real.exp (mkt.interest_rate * (dt : ℝ)) ≠ 0 := Real.exp_ne_zero _
  rw [mkNodeData_p_down, mkNodeData_esperance, mkNodeData_variance,
    mkNodeData_forward_no_straddle mkt dt a s ts h]
  unfold calculate_down_probability
  congr 1
  unfold calculate_forward_price calculate_variance
  rw [h2, zpow_neg, zpow_neg, zpow_two, zpow_one]
  field_simp
  ring

end NodeFieldLemmas

section PriceLemmas

lemma payoff_nonneg (o : OptionContract) (s : ℝ) : 0 ≤ o.payoff s := by
  unfold OptionContract.payoff
  cases o.option_type <;> exact le_max_right _ _

lemma payoff_call (K : ℝ) (et : ExerciseType) (mat : ℤ) (s : ℝ) :
    OptionContract.payoff ⟨.call, et, K, mat⟩ s = max (s - K) 0 := rfl

lemma payoff_put (K : ℝ) (et : ExerciseType) (mat : ℤ) (s : ℝ) :
    OptionContract.payoff ⟨.put, et, K, mat⟩ s = max (K - s) 0 := rfl

lemma price_leaf (df : ℝ) (o : OptionContract) (nd : NodeData) :
    (PTree.leaf nd).price df o = o.payoff nd.spot_price := by
  unfold PTree.price
  split <;> simp

lemma price_branch_eu (df : ℝ) (o : OptionContract) (h : o.exercise_type = .eu)
    (nd : NodeData) (u m d : PTree) :
    (PTree.branch nd u m d).price df o =
      df * (nd.p_up * u.price df o + nd.p_mid * m.price df o +
        nd.p_down * d.price df o) := by
  obtain ⟨ot, et, K, mat⟩ := o
  cases h
  rfl

lemma price_branch_us (df : ℝ) (o : OptionContract) (h : o.exercise_type = .us)
    (nd : NodeData) (u m d : PTree) :
    (PTree.branch nd u m d).price df o =
      max (df * (nd.p_up * u.price df o + nd.p_mid * m.price df o +
        nd.p_down * d.price df o)) (o.payoff nd.spot_price) := by
  obtain ⟨ot, et, K, mat⟩ := o
  cases h
  rfl

end PriceLemmas

/-- C1: `Node.price` on a fully built lattice: at a leaf it returns the
contract's payoff at the node's spot (`max(spot − strike, 0)` for a call,
`max(strike − spot, 0)` for a put, via `Option.payoff`); at an interior node
it returns the tree's discount factor times the probability-weighted sum of
the children's recursively computed values; and for American exercise
(`"us"`) the node's value is the max of that continuation value and the
immediate payoff. -/
theorem node_price_backward_induction (K : ℝ) (mat : ℤ) (ot : OptionType)
    (df : ℝ) (nd : NodeData) (u m d : PTree) (s : ℝ) (et : ExerciseType) :
    (PTree.leaf nd).price df ⟨ot, .eu, K, mat⟩ =
        OptionContract.payoff ⟨ot, .eu, K, mat⟩ nd.spot_price ∧
    (PTree.leaf nd).price df ⟨ot, .us, K, mat⟩ =
        OptionContract.payoff ⟨ot, .us, K, mat⟩ nd.spot_price ∧
    (PTree.branch nd u m d).price df ⟨ot, .eu, K, mat⟩ =
        df * (nd.p_up * u.price df ⟨ot, .eu, K, mat⟩ +
          nd.p_mid * m.price df ⟨ot, .eu, K, mat⟩ +
          nd.p_down * d.price df ⟨ot, .eu, K, mat⟩) ∧
    (PTree.branch nd u m d).price df ⟨ot, .us, K, mat⟩ =
        max (df * (nd.p_up * u.price df ⟨ot, .us, K, mat⟩ +
          nd.p_mid * m.price df ⟨ot, .us, K, mat⟩ +
          nd.p_down * d.price df ⟨ot, .us, K, mat⟩))
          (OptionContract.payoff ⟨ot, .us, K, mat⟩ nd.spot_price) ∧
    OptionContract.payoff ⟨.call, et, K, mat⟩ s = max (s - K) 0 ∧
    OptionContract.payoff ⟨.put, et, K, mat⟩ s = max (K - s) 0 := by
  refine ⟨price_leaf _ _ _, price_leaf _ _ _, price_branch_eu _ _ rfl _ _ _ _,
    price_branch_us _ _ rfl _ _ _ _, payoff_call _ _ _ _, payoff_put _ _ _ _⟩

/-- C10: on any lattice whose stored branch probabilities all lie in
`[0, 1]`, and for a nonnegative discount factor, `Node.price` returns a
nonnegative value at every node: leaf payoffs are `max(·, 0) ≥ 0`, interior
values are nonnegatively weighted combinations of child values scaled by the
discount factor, and the American `max` only increases the value. -/
theorem price_nonneg_of_probs_in_unit (df : ℝ) (o : OptionContract)
    (t : PTree) (hdf : 0 ≤ df) (hp : t.probsInUnit) : 0 ≤ t.price df o := by
  induction t with
  | leaf nd => rw [price_leaf]; exact payoff_nonneg o nd.spot_price
  | branch nd u m d ihu ihm ihd =>
      obtain ⟨⟨hu0, -⟩, ⟨hm0, -⟩, ⟨hd0, -⟩, pu, pm, pd⟩ := hp
      have hcont : 0 ≤ df * (nd.p_up * u.price df o + nd.p_mid * m.price df o +
          nd.p_down * d.price df o) := by
        refine mul_nonneg hdf ?_
        refine add_nonneg (add_nonneg ?_ ?_) ?_
        · exact mul_nonneg hu0 (ihu pu)
        · exact mul_nonneg hm0 (ihm pm)
        · exact mul_nonneg hd0 (ihd pd)
      unfold PTree.price
      split
      · exact le_max_of_le_right (payoff_nonneg o nd.spot_price)
      · exact hcont

/-- C7 (amended): on any lattice whose stored branch probabilities all lie
in `[0, 1]` and for a nonnegative discount factor, the American
(`exercise_type "us"`) value of every node is at least the European
(`"eu"`) value of the same node with otherwise identical contract
parameters. -/
theorem american_ge_european_of_probs_in_unit (df : ℝ) (ot : OptionType)
    (K : ℝ) (mat : ℤ) (t : PTree) (hdf : 0 ≤ df) (hp : t.probsInUnit) :
    t.price df ⟨ot, .eu, K, mat⟩ ≤ t.price df ⟨ot, .us, K, mat⟩ := by
  induction t with
  | leaf nd => rw [price_leaf, price_leaf]; exact le_of_eq rfl
  | branch nd u m d ihu ihm ihd =>
      obtain ⟨⟨hu0, -⟩, ⟨hm0, -⟩, ⟨hd0, -⟩, pu, pm, pd⟩ := hp
      rw [price_branch_eu _ _ rfl, price_branch_us _ _ rfl]
      refine le_max_of_le_left ?_
      refine mul_le_mul_of_nonneg_left ?_ hdf
      refine add_le_add (add_le_add ?_ ?_) ?_
      · exact mul_le_mul_of_nonneg_left (ihu pu) hu0
      · exact mul_le_mul_of_nonneg_left (ihm pm) hm0
      · exact mul_le_mul_of_nonneg_left (ihd pd) hd0

section MomentLemmas

/-- The three probabilities of every constructed node sum to 1 exactly:
`p_mid` is defined as `1 - (p_down + p_up)` (node.py line 88). -/
lemma probability_sum_exact (mkt : MarketData) (dt : ℚ) (a s : ℝ) (ts : ℚ) :
    (mkNodeData mkt dt a s ts).p_down + (mkNodeData mkt dt a s ts).p_up +
      (mkNodeData mkt dt a s ts).p_mid = 1 := by
  rw [mkNodeData_p_mid]; ring

/-- The first price moment of every constructed node equals its (possibly
dividend-adjusted) forward price exactly, for any value of `p_down`: with
`up = α·fwd`, `down = fwd/α`, `p_up = p_down/α` and
`p_mid = 1 - (p_down + p_up)` the weighted mean telescopes. -/
lemma first_moment_exact (mkt : MarketData) (dt : ℚ) (a s : ℝ) (ts : ℚ)
    (ha : a ≠ 0) :
    (mkNodeData mkt dt a s ts).down_price * (mkNodeData mkt dt a s ts).p_down +
      (mkNodeData mkt dt a s ts).forward_price * (mkNodeData mkt dt a s ts).p_mid +
      (mkNodeData mkt dt a s ts).up_price * (mkNodeData mkt dt a s ts).p_up =
      (mkNodeData mkt dt a s ts).forward_price := by
  rw [mkNodeData_down_price, mkNodeData_up_price, mkNodeData_p_mid, mkNodeData_p_up]
  field_simp
  ring

/-- Away from the dividend window (`esperance = forward_price`) the second
price moment of a constructed node equals `variance + esperance²` exactly,
provided the spacing is nondegenerate (`α ∉ {0, 1, -1}`). -/
lemma second_moment_exact (mkt : MarketData) (dt : ℚ) (a s : ℝ) (ts : ℚ)
    (h : ¬ straddlesDividend mkt dt ts) (hs : s ≠ 0) (ha0 : a ≠ 0)
    (ha1 : a ≠ 1) (ham : a ≠ -1) :
    (mkNodeData mkt dt a s ts).p_down * (mkNodeData mkt dt a s ts).down_price ^ 2 +
      (mkNodeData mkt dt a s ts).p_mid * (mkNodeData mkt dt a s ts).forward_price ^ 2 +
      (mkNodeData mkt dt a s ts).p_up * (mkNodeData mkt dt a s ts).up_price ^ 2 =
      (mkNodeData mkt dt a s ts).variance + (mkNodeData mkt dt a s ts).esperance ^ 2 := by
  have h1a : (1 : ℝ) - a ≠ 0 := sub_ne_zero.mpr fun hh => ha1 hh.symm
  have has2 : (1 : ℝ) - a ^ 2 ≠ 0 := by
    intro hh
    have : a * a = 1 := by nlinarith
    rcases mul_self_eq_one_iff.mp this with h1 | h1
    · exact ha1 h1
    · exact ham h1
  have h2 : Real.exp (2 * mkt.interest_rate * (dt : ℝ)) =
      Real.exp (mkt.interest_rate * (dt : ℝ)) *
        Real.exp (mkt.interest_rate * (dt : ℝ)) := by
    rw [← Real.exp_add]; ring_nf
  have hE : Real.exp (mkt.interest_rate * (dt : ℝ)) ≠ 0 := Real.exp_ne_zero _
  have hzrw : a ^ (-2 : ℤ) - 1 = (1 - a ^ 2) / a ^ 2 := by
    rw [zpow_neg, zpow_two, ← sq]
    field_simp
  rw [mkNodeData_p_mid, mkNodeData_p_up, mkNodeData_p_down_no_straddle mkt dt a s ts h hs,
    mkNodeData_down_price, mkNodeData_up_price, mkNodeData_forward_no_straddle mkt dt a s ts h,
    mkNodeData_esperance, mkNodeData_variance]
  unfold calculate_forward_price calculate_variance
  rw [h2, hzrw]
  field_simp
  ring

end MomentLemmas

/-- C3 (amended): for every constructed node the probability sum and the
first price moment hold exactly (hence within any tolerance), and for every
node whose step does not straddle the ex-dividend date the second price
moment equals `variance + esperance²` exactly as well (spot ≠ 0 and
nondegenerate spacing `alpha ≠ 1` assumed; `alpha = exp(·) > 0` rules out
`0` and `-1`).  For straddling nodes the second moment can fail by far more
than the stated `1e-4` relative tolerance (see the counterexample). -/
theorem node_moment_invariants (mkt : MarketData) (dt : ℚ) (s : ℝ) (ts : ℚ)
    (hs : s ≠ 0) (ha1 : calculate_alpha mkt.volatility (dt : ℝ) ≠ 1) :
    ((mkNodeData mkt dt (calculate_alpha mkt.volatility (dt : ℝ)) s ts).p_down +
        (mkNodeData mkt dt (calculate_alpha mkt.volatility (dt : ℝ)) s ts).p_up +
        (mkNodeData mkt dt (calculate_alpha mkt.volatility (dt : ℝ)) s ts).p_mid = 1) ∧
    ((mkNodeData mkt dt (calculate_alpha mkt.volatility (dt : ℝ)) s ts).down_price *
          (mkNodeData mkt dt (calculate_alpha mkt.volatility (dt : ℝ)) s ts).p_down +
        (mkNodeData mkt dt (calculate_alpha mkt.volatility (dt : ℝ)) s ts).forward_price *
          (mkNodeData mkt dt (calculate_alpha mkt.volatility (dt : ℝ)) s ts).p_mid +
        (mkNodeData mkt dt (calculate_alpha mkt.volatility (dt : ℝ)) s ts).up_price *
          (mkNodeData mkt dt (calculate_alpha mkt.volatility (dt : ℝ)) s ts).p_up =
        (mkNodeData mkt dt (calculate_alpha mkt.volatility (dt : ℝ)) s ts).forward_price) ∧
    (¬ straddlesDividend mkt dt ts →
      (mkNodeData mkt dt (calculate_alpha mkt.volatility (dt : ℝ)) s ts).p_down *
          (mkNodeData mkt dt (calculate_alpha mkt.volatility (dt : ℝ)) s ts).down_price ^ 2 +
        (mkNodeData mkt dt (calculate_alpha mkt.volatility (dt : ℝ)) s ts).p_mid *
          (mkNodeData mkt dt (calculate_alpha mkt.volatility (dt : ℝ)) s ts).forward_price ^ 2 +
        (mkNodeData mkt dt (calculate_alpha mkt.volatility (dt : ℝ)) s ts).p_up *
          (mkNodeData mkt dt (calculate_alpha mkt.volatility (dt : ℝ)) s ts).up_price ^ 2 =
        (mkNodeData mkt dt (calculate_alpha mkt.volatility (dt : ℝ)) s ts).variance +
          (mkNodeData mkt dt (calculate_alpha mkt.volatility (dt : ℝ)) s ts).esperance ^ 2) := by
  have hpos : 0 < calculate_alpha mkt.volatility (dt : ℝ) := Real.exp_pos _
  have ha0 : calculate_alpha mkt.volatility (dt : ℝ) ≠ 0 := ne_of_gt hpos
  have ham : calculate_alpha mkt.volatility (dt : ℝ) ≠ -1 := by
    intro hh; rw [hh] at hpos; linarith
  exact ⟨probability_sum_exact mkt dt _ s ts,
    first_moment_exact mkt dt _ s ts ha0,
    fun h => second_moment_exact mkt dt _ s ts h hs ha0 ha1 ham⟩

/-- Witness for C3 (amended) at a concrete non-straddling node of the
dividend market (`time_step = 10` is after the ex-date `0`). -/
theorem node_moment_invariants_witness :
    (100 : ℝ) ≠ 0 ∧
    ((mkNodeData mktDividend (1/3) (calculate_alpha mktDividend.volatility ((1/3 : ℚ) : ℝ)) 100 10).p_down +
        (mkNodeData mktDividend (1/3) (calculate_alpha mktDividend.volatility ((1/3 : ℚ) : ℝ)) 100 10).p_up +
        (mkNodeData mktDividend (1/3) (calculate_alpha mktDividend.volatility ((1/3 : ℚ) : ℝ)) 100 10).p_mid = 1) := by
  have ha1 : calculate_alpha mktDividend.volatility ((1/3 : ℚ) : ℝ) ≠ 1 := by
    unfold calculate_alpha
    rw [Ne, Real.exp_eq_one_iff]
    intro hh
    have h9 : (3 : ℝ) * ((1/3 : ℚ) : ℝ) = 1 := by push_cast; norm_num
    rw [h9, Real.sqrt_one] at hh
    simp [mktDividend] at hh
  exact ⟨by norm_num,
    (node_moment_invariants mktDividend (1/3) 100 10 (by norm_num) ha1).1⟩

/-- C4 (code evaluation): for every node whose step straddles the
ex-dividend date the constructor does set `esperance` to the pre-dividend
forward price and does subtract the dividend to obtain `forward_price`, but
it computes `p_up` with the plain no-dividend rule
`calculate_up_probability`, i.e. `p_up = p_down / alpha`: the constructor
calls `__calculate_probabilities()` with its default `with_dividend = False`
on both branches (node.py lines 51, 54), and the dividend-aware
`calculate_up_probability_w_dividend` it imports (node.py line 11) does not
exist in utils.py at all. -/
theorem dividend_node_up_probability_rule (mkt : MarketData) (dt : ℚ)
    (a s : ℝ) (ts : ℚ) (h : straddlesDividend mkt dt ts) :
    (mkNodeData mkt dt a s ts).esperance =
        calculate_forward_price s mkt.interest_rate (dt : ℝ) ∧
    (mkNodeData mkt dt a s ts).forward_price =
        (mkNodeData mkt dt a s ts).esperance - mkt.dividend_price ∧
    (mkNodeData mkt dt a s ts).p_up =
        calculate_up_probability (mkNodeData mkt dt a s ts).p_down a ∧
    (mkNodeData mkt dt a s ts).p_up = (mkNodeData mkt dt a s ts).p_down / a := by
  refine ⟨mkNodeData_esperance mkt dt a s ts, ?_, rfl, rfl⟩
  rw [mkNodeData_forward_straddle mkt dt a s ts h, mkNodeData_esperance]

/-- Witness for C4 at the concrete straddling root node of `mktDividend`. -/
theorem dividend_node_up_probability_rule_witness :
    straddlesDividend mktDividend (1/3) 0 ∧
    dividendNode.p_up = dividendNode.p_down /
      calculate_alpha 1 ((1/3 : ℚ) : ℝ) :=
  ⟨by simp [straddlesDividend, mktDividend],
    (dividend_node_up_probability_rule mktDividend (1/3)
      (calculate_alpha 1 ((1/3 : ℚ) : ℝ)) 100 0
      (by simp [straddlesDividend, mktDividend])).2.2.2⟩

/-- C5 (code evaluation): with zero volatility `calculate_alpha` returns
`exp(0) = 1`, so the moment-matching divisor `(1 - alpha) * (alpha⁻² - 1)`
of `calculate_down_probability` is exactly `0`.  No guard exists anywhere in
the pricing path: in Python the node constructor's probability computation
raises `ZeroDivisionError` instead of returning the discounted deterministic
payoff the specification prescribes. -/
theorem zero_volatility_divides_by_zero :
    calculate_alpha 0 ((1/3 : ℚ) : ℝ) = 1 ∧
    (1 - calculate_alpha 0 ((1/3 : ℚ) : ℝ)) *
        (calculate_alpha 0 ((1/3 : ℚ) : ℝ) ^ (-2 : ℤ) - 1) = 0 := by
  have h1 : calculate_alpha 0 ((1/3 : ℚ) : ℝ) = 1 := by
    simp [calculate_alpha]
  exact ⟨h1, by rw [h1]; norm_num⟩

section BuilderLemmas

lemma upsChildren_length (mkt : MarketData) (dt : ℚ) (a : ℝ) (date : ℚ)
    (l : List BNode) : ∀ c, (upsChildren mkt dt a date c l).length = l.length := by
  induction l with
  | nil => intro c; rfl
  | cons u rest ih => intro c; simp [upsChildren, ih]

lemma downsChildren_length (mkt : MarketData) (dt : ℚ) (a : ℝ) (date : ℚ)
    (l : List BNode) : ∀ c, (downsChildren mkt dt a date c l).length = l.length := by
  induction l with
  | nil => intro c; rfl
  | cons u rest ih => intro c; simp [downsChildren, ih]

lemma upsChildren_ids (mkt : MarketData) (dt : ℚ) (a : ℝ) (date : ℚ)
    (l : List BNode) : ∀ c,
    (upsChildren mkt dt a date c l).map BNode.id = List.range' c l.length := by
  induction l with
  | nil => intro c; rfl
  | cons u rest ih => intro c; simp [upsChildren, List.range'_succ, ih]

lemma downsChildren_ids (mkt : MarketData) (dt : ℚ) (a : ℝ) (date : ℚ)
    (l : List BNode) : ∀ c,
    (downsChildren mkt dt a date c l).map BNode.id = List.range' c l.length := by
  induction l with
  | nil => intro c; rfl
  | cons u rest ih => intro c; simp [downsChildren, List.range'_succ, ih]

/-- Chain lengths and the creation counter, by induction over the build:
generation `k` has `k` upper and `k` lower neighbours, and `(k+1)²` nodes
have been created in total once it is built. -/
lemma buildGen_invariant (mkt : MarketData) (dt : ℚ) (a : ℝ) (pricing : ℚ) :
    ∀ k, (buildGen mkt dt a pricing k).1.ups.length = k ∧
      (buildGen mkt dt a pricing k).1.downs.length = k ∧
      (buildGen mkt dt a pricing k).2.1 = (k + 1) ^ 2 := by
  intro k
  induction k with
  | zero => refine ⟨rfl, rfl, rfl⟩
  | succ k ih =>
      obtain ⟨hu, hd, hc⟩ := ih
      refine ⟨?_, ?_, ?_⟩
      · simp [buildGen, constructNextGeneration, upsChildren_length, hu]
      · simp [buildGen, constructNextGeneration, downsChildren_length, hd]
      · simp [buildGen, constructNextGeneration, upsChildren_length,
          downsChildren_length, hu, hd, hc]
        ring

/-- The creation indices of generation `k` are pairwise distinct (indeed
they are exactly `k², …, (k+1)² - 1`, in the constructor-call order). -/
lemma buildGen_ids_nodup (mkt : MarketData) (dt : ℚ) (a : ℝ) (pricing : ℚ) :
    ∀ k, (genIds (buildGen mkt dt a pricing k).1).Nodup := by
  intro k
  cases k with
  | zero => simp [buildGen, genIds]
  | succ k =>
      obtain ⟨hu, hd, hc⟩ := buildGen_invariant mkt dt a pricing k
      have hids : genIds (buildGen mkt dt a pricing (k + 1)).1 =
          (k + 1) ^ 2 :: (((k + 1) ^ 2 + 1) :: List.range' ((k + 1) ^ 2 + 3) k ++
            (((k + 1) ^ 2 + 2) :: List.range' ((k + 1) ^ 2 + 3 + k) k)) := by
        simp [buildGen, genIds, constructNextGeneration, upsChildren_ids,
          downsChildren_ids, hu, hd, hc]
      rw [hids]
      simp only [List.cons_append]
      refine List.nodup_cons.mpr ⟨?_, ?_⟩
      · simp only [List.mem_cons, List.mem_append, List.mem_range'_1]
        omega
      refine List.nodup_cons.mpr ⟨?_, ?_⟩
      · simp only [List.mem_cons, List.mem_append, List.mem_range'_1]
        omega
      refine List.nodup_append.mpr ⟨List.nodup_range' _ _, ?_, ?_⟩
      · refine List.nodup_cons.mpr ⟨?_, List.nodup_range' _ _⟩
        simp only [List.mem_range'_1]
        omega
      · intro x hx hx2
        simp only [List.mem_range'_1] at hx
        simp only [List.mem_cons, List.mem_range'_1] at hx2
        omega

end BuilderLemmas

/-- C2: for every tree built over `n_steps ≥ 1` generations and every
`k ≤ n_steps`, generation `k` holds exactly `2k + 1` nodes with pairwise
distinct creation indices, and the creation counter after building it is
`(k+1)²`: building generation `k` performed exactly
`(k+1)² - k² = 2k + 1` `Node(...)` calls — the three children of the trunk
plus exactly one new extremal node per upper and per lower neighbour of the
previous generation (`2(k-1)` of them), every other child slot being filled
by reusing the already-constructed children of the lower/upper sibling.  No
node is created twice for a (generation, level) slot: the `2k + 1` slots of
generation `k` are exactly its `2k + 1` distinct creations. -/
theorem generation_size_and_distinctness (mkt : MarketData) (dt : ℚ) (a : ℝ)
    (pricing : ℚ) (n k : ℕ) (hn : 1 ≤ n) (hk : k ≤ n) :
    genSize (buildGen mkt dt a pricing k).1 = 2 * k + 1 ∧
    (genIds (buildGen mkt dt a pricing k).1).Nodup ∧
    (buildGen mkt dt a pricing k).2.1 = (k + 1) ^ 2 := by
  obtain ⟨hu, hd, hc⟩ := buildGen_invariant mkt dt a pricing k
  refine ⟨?_, buildGen_ids_nodup mkt dt a pricing k, hc⟩
  unfold genSize
  rw [hu, hd]
  omega

/-- Witness for C2 at `n = 2`, `k = 1` of a concrete build. -/
theorem generation_size_and_distinctness_witness :
    (1 : ℕ) ≤ 2 ∧ genSize (buildGen mktPlain 1 1 0 1).1 = 2 * 1 + 1 :=
  ⟨by decide,
    (generation_size_and_distinctness mktPlain 1 1 0 2 1 (by decide) (by decide)).1⟩

section ParityLemmas

/-- With a zero dividend amount the dividend adjustment is the identity, so
every node's forward price is `spot · exp(r·Δt)` whether or not its step
straddles the ex-date. -/
lemma mkNodeData_forward_zero_div (mkt : MarketData) (dt : ℚ) (a s : ℝ)
    (ts : ℚ) (hdiv : mkt.dividend_price = 0) :
    (mkNodeData mkt dt a s ts).forward_price =
      calculate_forward_price s mkt.interest_rate (dt : ℝ) := by
  by_cases h : straddlesDividend mkt dt ts
  · rw [mkNodeData_forward_straddle mkt dt a s ts h, hdiv, sub_zero]
  · exact mkNodeData_forward_no_straddle mkt dt a s ts h

/-- Discounting one step exactly undoes one step of forward growth. -/
lemma discount_mul_forward (mkt : MarketData) (dt : ℚ) (s : ℝ) :
    calculate_discount_factor mkt.interest_rate (dt : ℝ) *
      calculate_forward_price s mkt.interest_rate (dt : ℝ) = s := by
  unfold calculate_discount_factor calculate_forward_price
  rw [mul_comm s, ← mul_assoc, ← Real.exp_add]
  ring_nf
  rw [Real.exp_zero, one_mul]

/-- Put–call parity on the built lattice, by induction on the height: the
European call value minus the European put value below a node at spot `s`
and height `h` is `s - K·df^h`, for any market with zero dividend. -/
lemma parity_aux (mkt : MarketData) (hdiv : mkt.dividend_price = 0) (dt : ℚ)
    (K : ℝ) (mat : ℤ) : ∀ (h : ℕ) (s : ℝ) (ts : ℚ),
    (buildSubtree mkt dt (calculate_alpha mkt.volatility (dt : ℝ)) h s ts).price
        (calculate_discount_factor mkt.interest_rate (dt : ℝ)) ⟨.call, .eu, K, mat⟩ -
      (buildSubtree mkt dt (calculate_alpha mkt.volatility (dt : ℝ)) h s ts).price
        (calculate_discount_factor mkt.interest_rate (dt : ℝ)) ⟨.put, .eu, K, mat⟩ =
      s - K * calculate_discount_factor mkt.interest_rate (dt : ℝ) ^ h := by
  intro h
  induction h with
  | zero =>
      intro s ts
      simp only [buildSubtree, price_leaf, payoff_call, payoff_put,
        mkNodeData_spot, pow_zero, mul_one]
      rcases le_total s K with hsK | hsK
      · rw [max_eq_right (by linarith), max_eq_left (by linarith)]; ring
      · rw [max_eq_left (by linarith), max_eq_right (by linarith)]; ring
  | succ hh ih =>
      intro s ts
      have ha0 : calculate_alpha mkt.volatility (dt : ℝ) ≠ 0 := Real.exp_ne_zero _
      simp only [buildSubtree]
      rw [price_branch_eu _ _ rfl, price_branch_eu _ _ rfl]
      have hU := ih (mkNodeData mkt dt (calculate_alpha mkt.volatility (dt : ℝ)) s ts).up_price
        (ts + dt * 365)
      have hM := ih (mkNodeData mkt dt (calculate_alpha mkt.volatility (dt : ℝ)) s ts).forward_price
        (ts + dt * 365)
      have hD := ih (mkNodeData mkt dt (calculate_alpha mkt.volatility (dt : ℝ)) s ts).down_price
        (ts + dt * 365)
      have hsum := probability_sum_exact mkt dt (calculate_alpha mkt.volatility (dt : ℝ)) s ts
      have hmean := first_moment_exact mkt dt (calculate_alpha mkt.volatility (dt : ℝ)) s ts ha0
      have hdffwd : calculate_discount_factor mkt.interest_rate (dt : ℝ) *
          (mkNodeData mkt dt (calculate_alpha mkt.volatility (dt : ℝ)) s ts).forward_price = s := by
        rw [mkNodeData_forward_zero_div mkt dt _ s ts hdiv]
        exact discount_mul_forward mkt dt s
      set a := calculate_alpha mkt.volatility (dt : ℝ)
      set df := calculate_discount_factor mkt.interest_rate (dt : ℝ)
      set nd := mkNodeData mkt dt a s ts
      linear_combination (df * nd.p_up) * hU + (df * nd.p_mid) * hM +
        (df * nd.p_down) * hD + df * hmean - (K * df ^ hh * df) * hsum + hdffwd

end ParityLemmas

/-- C8: for European calls and puts with the same strike, maturity, pricing
date and step count on a zero-dividend market, the lattice prices satisfy
put–call parity exactly (hence within any discretization tolerance):
`call - put = spot - K · discount_factor(rate, T)` with
`T = (maturity - pricing)/365`. -/
theorem put_call_parity (mkt : MarketData) (pricing n : ℤ) (K : ℝ) (mat : ℤ)
    (hdiv : mkt.dividend_price = 0) (hdate : pricing < mat) (hn : 1 ≤ n) :
    treeValue mkt pricing n ⟨.call, .eu, K, mat⟩ -
      treeValue mkt pricing n ⟨.put, .eu, K, mat⟩ =
      mkt.spot_price -
        K * calculate_discount_factor mkt.interest_rate
          (((mat - pricing : ℚ) : ℝ) / 365) := by
  unfold treeValue
  dsimp only
  rw [parity_aux mkt hdiv _ K mat n.toNat mkt.spot_price (pricing : ℚ)]
  have hq : (0 : ℚ) < (mat : ℚ) - (pricing : ℚ) := by
    exact_mod_cast sub_pos.mpr hdate
  have hnq : (0 : ℚ) < (n : ℚ) := by exact_mod_cast lt_of_lt_of_le zero_lt_one hn
  have habs : |(((mat : ℚ) - (pricing : ℚ)) / (n : ℚ)) / 365| =
      (((mat : ℚ) - (pricing : ℚ)) / (n : ℚ)) / 365 := by
    apply abs_of_pos; positivity
  have hnn : ((n.toNat : ℚ)) = (n : ℚ) := by
    exact_mod_cast congrArg (Int.cast : ℤ → ℚ) (Int.toNat_of_nonneg (by linarith))
  have harg : ((|(((mat : ℚ) - (pricing : ℚ)) / (n : ℚ)) / 365| : ℚ) : ℝ) * (n.toNat : ℝ) =
      (((mat - pricing : ℚ) : ℝ)) / 365 := by
    rw [habs]
    have : (((((mat : ℚ) - (pricing : ℚ)) / (n : ℚ)) / 365 : ℚ) : ℝ) * ((n.toNat : ℚ) : ℝ) =
        ((((((mat : ℚ) - (pricing : ℚ)) / (n : ℚ)) / 365) * (n.toNat : ℚ) : ℚ) : ℝ) := by
      push_cast; ring
    rw [show ((n.toNat : ℝ)) = ((n.toNat : ℚ) : ℝ) by push_cast; ring, this, hnn]
    have hne : (n : ℚ) ≠ 0 := ne_of_gt hnq
    rw [show (((mat : ℚ) - (pricing : ℚ)) / (n : ℚ)) / 365 * (n : ℚ) =
        ((mat : ℚ) - (pricing : ℚ)) / 365 from by field_simp; ring]
    push_cast; ring
  have hdf : calculate_discount_factor mkt.interest_rate
      ((|(((mat : ℚ) - (pricing : ℚ)) / (n : ℚ)) / 365| : ℚ) : ℝ) ^ n.toNat =
      calculate_discount_factor mkt.interest_rate (((mat - pricing : ℚ) : ℝ) / 365) := by
    unfold calculate_discount_factor
    rw [← Real.exp_nat_mul]
    congr 1
    rw [← harg]
    ring
  rw [hdf]

/-- Witness for C8 on a concrete market (spot 100, strike 100, one step,
one year). -/
theorem put_call_parity_witness :
    mktPlain.dividend_price = 0 ∧ (0 : ℤ) < 365 ∧ (1 : ℤ) ≤ 1 ∧
    treeValue mktPlain 0 1 ⟨.call, .eu, 100, 365⟩ -
        treeValue mktPlain 0 1 ⟨.put, .eu, 100, 365⟩ =
      mktPlain.spot_price -
        100 * calculate_discount_factor mktPlain.interest_rate
          ((((365 : ℤ) - (0 : ℤ) : ℚ) : ℝ) / 365) :=
  ⟨rfl, by decide, by decide,
    put_call_parity mktPlain 0 1 100 365 rfl (by decide) (by decide)⟩

/-! ### The degenerate root-constructor guards

Helper facts for the error path that `Node.__init__` triggers during tree
building: a node's `esperance` is `spot · exp(r·Δt)`, zero exactly when its
spot is zero, and `alpha = exp(vol·√(3Δt))` equals `1` exactly when the
exponent vanishes. -/

lemma calculate_forward_price_ne_zero (s r d : ℝ) (hs : s ≠ 0) :
    calculate_forward_price s r d ≠ 0 := by
  unfold calculate_forward_price
  exact mul_ne_zero hs (Real.exp_ne_zero _)

lemma calculate_alpha_ne_one (v d : ℝ) (hv : v ≠ 0) (hd : 0 < d) :
    calculate_alpha v d ≠ 1 := by
  unfold calculate_alpha
  rw [Ne, Real.exp_eq_one_iff]
  intro hmul
  rcases mul_eq_zero.mp hmul with h1 | h2
  · exact hv h1
  · have hpos : 0 < Real.sqrt (3 * d) := Real.sqrt_pos.mpr (by linarith)
    rw [h2] at hpos
    exact lt_irrefl 0 hpos

lemma buildSubtree_zero_esperancesNonzero (mkt : MarketData) (dt : ℚ) (a : ℝ)
    (s : ℝ) (ts : ℚ) (hs : s ≠ 0) :
    (buildSubtree mkt dt a 0 s ts).esperancesNonzero := by
  simp only [buildSubtree, PTree.esperancesNonzero, mkNodeData_esperance]
  exact calculate_forward_price_ne_zero s mkt.interest_rate _ hs

/-- On a zero-dividend market no constructed node of the sublattice below a
nonzero spot has a zero `esperance`: children sit at `alpha·forward`,
`forward` and `forward/alpha` of a nonzero forward price. -/
lemma buildSubtree_esperancesNonzero (mkt : MarketData) (dt : ℚ) (a : ℝ)
    (hdiv : mkt.dividend_price = 0) (ha : a ≠ 0) :
    ∀ (h : ℕ) (s : ℝ) (ts : ℚ), s ≠ 0 →
      (buildSubtree mkt dt a h s ts).esperancesNonzero := by
  intro h
  induction h with
  | zero => exact fun s ts hs => buildSubtree_zero_esperancesNonzero mkt dt a s ts hs
  | succ k ih =>
      intro s ts hs
      have hf : (mkNodeData mkt dt a s ts).forward_price ≠ 0 := by
        rw [mkNodeData_forward_zero_div mkt dt a s ts hdiv]
        exact calculate_forward_price_ne_zero s mkt.interest_rate _ hs
      simp only [buildSubtree, PTree.esperancesNonzero]
      refine ⟨?_, ?_, ?_, ?_⟩
      · rw [mkNodeData_esperance]
        exact calculate_forward_price_ne_zero s mkt.interest_rate _ hs
      · exact ih _ _ (by rw [mkNodeData_up_price]; exact mul_ne_zero ha hf)
      · exact ih _ _ hf
      · exact ih _ _ (by rw [mkNodeData_down_price]; exact div_ne_zero hf ha)

/-- The negative-step behaviour of the entry point on inputs where the root
constructor divides by nothing: `range(n_steps)` is empty, the lattice is
the bare root, and the undiscounted payoff at the spot is returned. -/
lemma trinomial_price_neg_steps (mkt : MarketData) (o : OptionContract)
    (pricing n : ℤ) (hdate : pricing < o.maturity_date) (hn : n < 0)
    (hs : mkt.spot_price ≠ 0) (hv : mkt.volatility ≠ 0) :
    TrinomialTree.price mkt pricing n o = .ok (o.payoff mkt.spot_price) := by
  have hn0 : ¬ n = 0 := by omega
  have ht : n.toNat = 0 := by omega
  have hsub : ((o.maturity_date : ℚ)) - (pricing : ℚ) ≠ 0 := by
    have h : (0 : ℚ) < (o.maturity_date : ℚ) - (pricing : ℚ) := by
      exact_mod_cast sub_pos.mpr hdate
    exact ne_of_gt h
  have hnq : ((n : ℚ)) ≠ 0 := Int.cast_ne_zero.mpr (by omega)
  have habs : (0 : ℚ) <
      |(((o.maturity_date : ℚ) - (pricing : ℚ)) / (n : ℚ)) / 365| := by
    apply abs_pos.mpr
    apply div_ne_zero (div_ne_zero hsub hnq)
    norm_num
  have hdtR : (0 : ℝ) <
      ((|(((o.maturity_date : ℚ) - (pricing : ℚ)) / (n : ℚ)) / 365| : ℚ) : ℝ) := by
    exact_mod_cast habs
  unfold TrinomialTree.price
  rw [if_pos hdate, if_neg hn0]
  dsimp only
  rw [if_neg (calculate_forward_price_ne_zero mkt.spot_price mkt.interest_rate
    ((|(((o.maturity_date : ℚ) - (pricing : ℚ)) / (n : ℚ)) / 365| : ℚ) : ℝ) hs)]
  rw [if_neg (calculate_alpha_ne_one mkt.volatility _ hv hdtR)]
  rw [ht]
  rw [if_pos (buildSubtree_zero_esperancesNonzero mkt
    (|(((o.maturity_date : ℚ) - (pricing : ℚ)) / (n : ℚ)) / 365|)
    (calculate_alpha mkt.volatility
      ((|(((o.maturity_date : ℚ) - (pricing : ℚ)) / (n : ℚ)) / 365| : ℚ) : ℝ))
    mkt.spot_price (pricing : ℚ) hs)]
  have htv0 : treeValue mkt pricing n o = o.payoff mkt.spot_price := by
    unfold treeValue
    dsimp only
    rw [ht]
    simp only [buildSubtree, price_leaf, mkNodeData_spot]
  rw [htv0]

/-- C6 (amended): the entry point checks only the date precondition.  A
pricing date on or after maturity raises (`AssertionError`); `n_steps = 0`
fails only incidentally, with `ZeroDivisionError` while computing
`delta_t`; and a *negative* `n_steps` is not rejected at all:
`range(n_steps)` is empty, the lattice degenerates to its root, and —
whenever the root constructor's arithmetic is defined (nonzero spot,
nonzero volatility) — the undiscounted payoff at the spot is returned.  On
the degenerate slices the failure is again `ZeroDivisionError` from the
root `Node` constructor, not a precondition error: zero volatility makes
`alpha = 1` and the moment-matching divisor zero (float division), and a
zero spot makes `esperance` zero so `esperance ** (-2)` raises (a zero
float cannot be raised to a negative power). -/
theorem pricing_precondition_behaviour (mkt : MarketData) (o : OptionContract)
    (pricing n : ℤ) :
    (o.maturity_date ≤ pricing → TrinomialTree.price mkt pricing n o =
        .error "AssertionError: Pricing date must be before maturity date.") ∧
    (pricing < o.maturity_date → n = 0 → TrinomialTree.price mkt pricing n o =
        .error "ZeroDivisionError: division by zero") ∧
    (pricing < o.maturity_date → n < 0 → mkt.spot_price ≠ 0 →
      mkt.volatility ≠ 0 → TrinomialTree.price mkt pricing n o =
        .ok (o.payoff mkt.spot_price)) ∧
    (pricing < o.maturity_date → ¬ n = 0 → mkt.spot_price ≠ 0 →
      mkt.volatility = 0 → TrinomialTree.price mkt pricing n o =
        .error "ZeroDivisionError: float division by zero") ∧
    (pricing < o.maturity_date → ¬ n = 0 → mkt.spot_price = 0 →
      TrinomialTree.price mkt pricing n o =
        .error "ZeroDivisionError: 0.0 cannot be raised to a negative power") := by
  refine ⟨?_, ?_, ?_, ?_, ?_⟩
  · intro h
    unfold TrinomialTree.price
    rw [if_neg (not_lt.mpr h)]
  · intro h hz
    unfold TrinomialTree.price
    rw [if_pos h, if_pos hz]
  · intro h hneg hs hv
    exact trinomial_price_neg_steps mkt o pricing n h hneg hs hv
  · intro h hn0 hs hv0
    unfold TrinomialTree.price
    rw [if_pos h, if_neg hn0]
    dsimp only
    rw [if_neg (calculate_forward_price_ne_zero mkt.spot_price mkt.interest_rate
      ((|(((o.maturity_date : ℚ) - (pricing : ℚ)) / (n : ℚ)) / 365| : ℚ) : ℝ) hs)]
    have ha1 : calculate_alpha mkt.volatility
        ((|(((o.maturity_date : ℚ) - (pricing : ℚ)) / (n : ℚ)) / 365| : ℚ) : ℝ) = 1 := by
      rw [hv0]
      unfold calculate_alpha
      rw [zero_mul, Real.exp_zero]
    rw [if_pos ha1]
  · intro h hn0 hs0
    unfold TrinomialTree.price
    rw [if_pos h, if_neg hn0]
    dsimp only
    have hf0 : calculate_forward_price mkt.spot_price mkt.interest_rate
        ((|(((o.maturity_date : ℚ) - (pricing : ℚ)) / (n : ℚ)) / 365| : ℚ) : ℝ) = 0 := by
      rw [hs0]
      unfold calculate_forward_price
      rw [zero_mul]
    rw [if_pos hf0]

/-- C6 (counterexample to the claim as stated): with the negative step count
`n_steps = -1` on a benign market the call does not fail — it returns the
payoff `10`. -/
theorem negative_steps_returns_price :
    TrinomialTree.price mktPlain 0 (-1) plainCall = .ok 10 := by
  have h : (0 : ℤ) < plainCall.maturity_date := by simp [plainCall]
  rw [trinomial_price_neg_steps mktPlain plainCall 0 (-1) h (by norm_num)
    (by simp only [mktPlain]; norm_num) (by simp only [mktPlain]; norm_num)]
  unfold OptionContract.payoff
  simp only [plainCall, mktPlain]
  norm_num

/-- Witness for C6 (amended), exercising the negative-step branch with a
different concrete contract (strike 80, `n_steps = -2`). -/
theorem pricing_precondition_behaviour_witness :
    (0 : ℤ) < plainCall80.maturity_date ∧ (-2 : ℤ) < 0 ∧
    mktPlain.spot_price ≠ 0 ∧ mktPlain.volatility ≠ 0 ∧
    TrinomialTree.price mktPlain 0 (-2) plainCall80 =
      .ok (plainCall80.payoff mktPlain.spot_price) :=
  ⟨by simp [plainCall80], by decide, by simp only [mktPlain]; norm_num,
    by simp only [mktPlain]; norm_num,
    (pricing_precondition_behaviour mktPlain plainCall80 0 (-2)).2.2.1
      (by simp [plainCall80]) (by decide) (by simp only [mktPlain]; norm_num)
      (by simp only [mktPlain]; norm_num)⟩

section NumericBounds

lemma exp_third_bounds : (1.3956 : ℝ) < Real.exp (1/3) ∧ Real.exp (1/3) < 1.39562 := by
  have hpos : (0 : ℝ) < Real.exp (1/3) := Real.exp_pos _
  have hcube : Real.exp (1/3) ^ 3 = Real.exp 1 := by
    rw [← Real.exp_nat_mul]; norm_num
  constructor
  · by_contra hc
    push_neg at hc
    have h3 : Real.exp (1/3) ^ 3 ≤ (1.3956 : ℝ) ^ 3 := pow_le_pow_left₀ hpos.le hc 3
    rw [hcube] at h3
    have := Real.exp_one_gt_d9
    norm_num at h3
    linarith
  · by_contra hc
    push_neg at hc
    have h3 : (1.39562 : ℝ) ^ 3 ≤ Real.exp (1/3) ^ 3 := pow_le_pow_left₀ (by norm_num) hc 3
    rw [hcube] at h3
    have := Real.exp_one_lt_d9
    norm_num at h3
    linarith

lemma exp_half_bounds : (1.6487 : ℝ) < Real.exp (1/2) ∧ Real.exp (1/2) < 1.6488 := by
  have hpos : (0 : ℝ) < Real.exp (1/2) := Real.exp_pos _
  have hsq : Real.exp (1/2) ^ 2 = Real.exp 1 := by
    rw [← Real.exp_nat_mul]; norm_num
  constructor
  · by_contra hc
    push_neg at hc
    have h2 : Real.exp (1/2) ^ 2 ≤ (1.6487 : ℝ) ^ 2 := pow_le_pow_left₀ hpos.le hc 2
    rw [hsq] at h2
    have := Real.exp_one_gt_d9
    norm_num at h2
    linarith
  · by_contra hc
    push_neg at hc
    have h2 : (1.6488 : ℝ) ^ 2 ≤ Real.exp (1/2) ^ 2 := pow_le_pow_left₀ (by norm_num) hc 2
    rw [hsq] at h2
    have := Real.exp_one_lt_d9
    norm_num at h2
    linarith

lemma exp_twelfth_bounds : (1.0869 : ℝ) < Real.exp (1/12) ∧ Real.exp (1/12) < 1.08691 := by
  have hpos : (0 : ℝ) < Real.exp (1/12) := Real.exp_pos _
  have hp : Real.exp (1/12) ^ 12 = Real.exp 1 := by
    rw [← Real.exp_nat_mul]; norm_num
  constructor
  · by_contra hc
    push_neg at hc
    have h2 : Real.exp (1/12) ^ 12 ≤ (1.0869 : ℝ) ^ 12 := pow_le_pow_left₀ hpos.le hc 12
    rw [hp] at h2
    have := Real.exp_one_gt_d9
    norm_num at h2
    linarith
  · by_contra hc
    push_neg at hc
    have h2 : (1.08691 : ℝ) ^ 12 ≤ Real.exp (1/12) ^ 12 := pow_le_pow_left₀ (by norm_num) hc 12
    rw [hp] at h2
    have := Real.exp_one_lt_d9
    norm_num at h2
    linarith

lemma zpow_neg_two_eq (x : ℝ) : x ^ (-2 : ℤ) = (x ^ 2)⁻¹ := by
  rw [zpow_neg, show ((2 : ℤ)) = ((2 : ℕ) : ℤ) from rfl, zpow_natCast]

end NumericBounds

section DividendNodeFacts

lemma straddle_dividendNode : straddlesDividend mktDividend (1/3) 0 := by
  simp [straddlesDividend, mktDividend]

lemma alphaDividend_eq : calculate_alpha 1 ((1/3 : ℚ) : ℝ) = Real.exp 1 := by
  unfold calculate_alpha
  have h3 : (3 : ℝ) * ((1/3 : ℚ) : ℝ) = 1 := by push_cast; norm_num
  rw [h3, Real.sqrt_one, one_mul]

lemma dividendNode_esperance : dividendNode.esperance = 100 := by
  unfold dividendNode
  rw [mkNodeData_esperance]
  unfold calculate_forward_price
  simp [mktDividend]

lemma dividendNode_forward : dividendNode.forward_price = 50 := by
  unfold dividendNode
  rw [mkNodeData_forward_straddle _ _ _ _ _ straddle_dividendNode]
  unfold calculate_forward_price
  simp [mktDividend]
  norm_num

lemma dividendNode_variance :
    dividendNode.variance = 10000 * (Real.exp (1/3) - 1) := by
  unfold dividendNode
  rw [mkNodeData_variance]
  unfold calculate_variance
  simp [mktDividend]
  exact Or.inl (by norm_num)

lemma dividendNode_up : dividendNode.up_price = Real.exp 1 * 50 := by
  have h : dividendNode.up_price =
      calculate_alpha 1 ((1/3 : ℚ) : ℝ) * dividendNode.forward_price :=
    mkNodeData_up_price mktDividend (1/3) _ 100 0
  rw [h, dividendNode_forward, alphaDividend_eq]

lemma dividendNode_down : dividendNode.down_price = 50 / Real.exp 1 := by
  have h : dividendNode.down_price =
      dividendNode.forward_price / calculate_alpha 1 ((1/3 : ℚ) : ℝ) :=
    mkNodeData_down_price mktDividend (1/3) _ 100 0
  rw [h, dividendNode_forward, alphaDividend_eq]

lemma dividendNode_p_up_eq :
    dividendNode.p_up = dividendNode.p_down / Real.exp 1 := by
  have h : dividendNode.p_up =
      dividendNode.p_down / calculate_alpha 1 ((1/3 : ℚ) : ℝ) :=
    mkNodeData_p_up mktDividend (1/3) _ 100 0
  rw [h, alphaDividend_eq]

lemma dividendNode_p_mid_eq :
    dividendNode.p_mid = 1 - (dividendNode.p_down + dividendNode.p_up) :=
  mkNodeData_p_mid mktDividend (1/3) _ 100 0

lemma dividendNode_p_down_eq : dividendNode.p_down =
    (Real.exp (1/3) - 7/4 + (Real.exp 1 + 1)/2) /
      ((1 - Real.exp 1) * ((Real.exp 1 ^ 2)⁻¹ - 1)) := by
  have h : dividendNode.p_down =
      calculate_down_probability dividendNode.esperance dividendNode.forward_price
        dividendNode.variance (calculate_alpha 1 ((1/3 : ℚ) : ℝ)) :=
    mkNodeData_p_down mktDividend (1/3) _ 100 0
  rw [h, dividendNode_esperance, dividendNode_forward, dividendNode_variance,
    alphaDividend_eq]
  unfold calculate_down_probability
  simp only [zpow_neg_two_eq]
  congr 1
  norm_num
  ring

lemma dividendNode_target_eq :
    dividendNode.variance + dividendNode.esperance ^ 2 =
      10000 * Real.exp (1/3) := by
  rw [dividendNode_variance, dividendNode_esperance]
  ring

lemma dividendNode_p_down_bounds :
    (1.0127 : ℝ) < dividendNode.p_down ∧ dividendNode.p_down < 1.0129 := by
  obtain ⟨hT1, hT2⟩ := exp_third_bounds
  have hE1 := Real.exp_one_gt_d9
  have hE2 := Real.exp_one_lt_d9
  have hEpos : (0 : ℝ) < Real.exp 1 := Real.exp_pos 1
  rw [dividendNode_p_down_eq]
  have hsq1 : (7.38905609 : ℝ) < Real.exp 1 ^ 2 := by nlinarith
  have hsq2 : Real.exp 1 ^ 2 < 7.38905610 := by nlinarith
  have hsqpos : (0 : ℝ) < Real.exp 1 ^ 2 := by positivity
  have hImul : (Real.exp 1 ^ 2)⁻¹ * Real.exp 1 ^ 2 = 1 :=
    inv_mul_cancel₀ (ne_of_gt hsqpos)
  have hI1 : (0.135335283 : ℝ) < (Real.exp 1 ^ 2)⁻¹ := by nlinarith
  have hI2 : (Real.exp 1 ^ 2)⁻¹ < 0.135335284 := by nlinarith
  have hD1 : (1.485737 : ℝ) < (1 - Real.exp 1) * ((Real.exp 1 ^ 2)⁻¹ - 1) := by
    nlinarith
  have hD2 : (1 - Real.exp 1) * ((Real.exp 1 ^ 2)⁻¹ - 1) < 1.485738 := by
    nlinarith
  have hDpos : (0 : ℝ) < (1 - Real.exp 1) * ((Real.exp 1 ^ 2)⁻¹ - 1) := by linarith
  constructor
  · rw [lt_div_iff₀ hDpos]
    nlinarith
  · rw [div_lt_iff₀ hDpos]
    nlinarith

end DividendNodeFacts

section DividendNodeMoment

lemma dividendNode_m2_eq :
    dividendNode.p_down * dividendNode.down_price ^ 2 +
      dividendNode.p_mid * dividendNode.forward_price ^ 2 +
      dividendNode.p_up * dividendNode.up_price ^ 2 =
    2500 * (dividendNode.p_down * (Real.exp 1 ^ 2)⁻¹ +
      (1 - dividendNode.p_down - dividendNode.p_down * (Real.exp 1)⁻¹) +
      dividendNode.p_down * Real.exp 1) := by
  have hE0 : Real.exp 1 ≠ 0 := Real.exp_ne_zero 1
  rw [dividendNode_down, dividendNode_up, dividendNode_forward,
    dividendNode_p_mid_eq, dividendNode_p_up_eq]
  field_simp
  ring

set_option maxHeartbeats 1000000 in
lemma dividendNode_m2_bounds :
    (6260 : ℝ) < dividendNode.p_down * dividendNode.down_price ^ 2 +
        dividendNode.p_mid * dividendNode.forward_price ^ 2 +
        dividendNode.p_up * dividendNode.up_price ^ 2 ∧
      dividendNode.p_down * dividendNode.down_price ^ 2 +
        dividendNode.p_mid * dividendNode.forward_price ^ 2 +
        dividendNode.p_up * dividendNode.up_price ^ 2 < 6264 := by
  obtain ⟨hP1, hP2⟩ := dividendNode_p_down_bounds
  have hE1 := Real.exp_one_gt_d9
  have hE2 := Real.exp_one_lt_d9
  have hEpos : (0 : ℝ) < Real.exp 1 := Real.exp_pos 1
  have hsq1 : (7.38905609 : ℝ) < Real.exp 1 ^ 2 := by nlinarith
  have hsq2 : Real.exp 1 ^ 2 < 7.38905610 := by nlinarith
  have hsqpos : (0 : ℝ) < Real.exp 1 ^ 2 := by positivity
  have hImul : (Real.exp 1 ^ 2)⁻¹ * Real.exp 1 ^ 2 = 1 :=
    inv_mul_cancel₀ (ne_of_gt hsqpos)
  have hI1 : (0.135335283 : ℝ) < (Real.exp 1 ^ 2)⁻¹ := by nlinarith
  have hI2 : (Real.exp 1 ^ 2)⁻¹ < 0.135335284 := by nlinarith
  have hJmul : (Real.exp 1)⁻¹ * Real.exp 1 = 1 := inv_mul_cancel₀ (Real.exp_ne_zero 1)
  have hJ1 : (0.367879441 : ℝ) < (Real.exp 1)⁻¹ := by nlinarith
  have hJ2 : (Real.exp 1)⁻¹ < 0.367879442 := by nlinarith
  rw [dividendNode_m2_eq]
  have h1 : (0.137054 : ℝ) < dividendNode.p_down * (Real.exp 1 ^ 2)⁻¹ := by nlinarith
  have h2 : dividendNode.p_down * (Real.exp 1 ^ 2)⁻¹ < 0.137082 := by nlinarith
  have h3 : (0.372551 : ℝ) < dividendNode.p_down * (Real.exp 1)⁻¹ := by nlinarith
  have h4 : dividendNode.p_down * (Real.exp 1)⁻¹ < 0.372631 := by nlinarith
  have h5 : (2.752800 : ℝ) < dividendNode.p_down * Real.exp 1 := by nlinarith
  have h6 : dividendNode.p_down * Real.exp 1 < 2.753348 := by nlinarith
  constructor <;> linarith

end DividendNodeMoment

/-- C3 (counterexample): at the concrete straddling root node of
`mktDividend` (rate 0, volatility 1, spot 100, dividend 50 with ex-date at
the pricing date, `delta_t = 1/3`), the second price moment deviates from
`variance + esperance²` by far more than the stated `1e-4` relative
tolerance (the moment is ≈ 6262 against a target of ≈ 13956). -/
theorem second_moment_fails_on_dividend_node :
    (1/10000 : ℝ) * |dividendNode.variance + dividendNode.esperance ^ 2| <
      |dividendNode.p_down * dividendNode.down_price ^ 2 +
        dividendNode.p_mid * dividendNode.forward_price ^ 2 +
        dividendNode.p_up * dividendNode.up_price ^ 2 -
        (dividendNode.variance + dividendNode.esperance ^ 2)| := by
  obtain ⟨hm1, hm2⟩ := dividendNode_m2_bounds
  have htgt := dividendNode_target_eq
  obtain ⟨hT1, hT2⟩ := exp_third_bounds
  rw [htgt]
  rw [abs_of_pos (by nlinarith), abs_of_neg (by nlinarith)]
  nlinarith

section RoundingFacts

lemma rounding_factor_em4 : rounding_factor (1/10000 : ℚ) = -4 := by
  unfold rounding_factor
  rw [Int.clog_of_right_le_one 10 (by norm_num)]
  have h1 : ((1/10000 : ℚ))⁻¹ = 10000 := by norm_num
  rw [h1]
  have h2 : ⌊(10000 : ℚ)⌋₊ = 10000 := by norm_num
  rw [h2]
  have h3 : Nat.log 10 10000 = 4 :=
    Nat.log_eq_of_pow_le_of_lt_pow (by norm_num) (by norm_num)
  rw [h3]
  norm_num

end RoundingFacts

/-- C9 (counterexample): at the concrete straddling root node of
`mktDividend` with the routine's default tolerance `1e-4`, the second price
moment violates its invariant by ≈ 55% relative — far beyond the tolerance —
yet `__check_conditions` raises nothing: `rounding_factor = int(log10(1e-4))
= -4`, so `round(·, -4)` compares the two sides at a granularity of 10000,
and both ≈ 6262 and ≈ 13956 round to 10000. -/
theorem check_conditions_accepts_violation :
    checkConditions dividendNode (1/10000) ∧
    (1/10000 : ℝ) * |dividendNode.variance + dividendNode.esperance ^ 2| <
      |dividendNode.p_down * dividendNode.down_price ^ 2 +
        dividendNode.p_mid * dividendNode.forward_price ^ 2 +
        dividendNode.p_up * dividendNode.up_price ^ 2 -
        (dividendNode.variance + dividendNode.esperance ^ 2)| := by
  obtain ⟨hm1, hm2⟩ := dividendNode_m2_bounds
  have htgt := dividendNode_target_eq
  obtain ⟨hT1, hT2⟩ := exp_third_bounds
  constructor
  · refine ⟨⟨by norm_num, by norm_num⟩, ?_, ?_, ?_⟩
    · exact probability_sum_exact mktDividend (1/3) _ 100 0
    · have h : dividendNode.down_price * dividendNode.p_down +
          dividendNode.forward_price * dividendNode.p_mid +
          dividendNode.up_price * dividendNode.p_up = dividendNode.forward_price :=
        first_moment_exact mktDividend (1/3) (calculate_alpha 1 ((1/3 : ℚ) : ℝ)) 100 0
          (by unfold calculate_alpha; exact Real.exp_ne_zero _)
      rw [h]
    · rw [rounding_factor_em4]
      unfold pyRound
      rw [htgt]
      have hpow : ((10 : ℝ) ^ (-4 : ℤ)) = 1/10000 := by norm_num
      rw [hpow]
      have hr1 : round ((dividendNode.p_down * dividendNode.down_price ^ 2 +
          dividendNode.p_mid * dividendNode.forward_price ^ 2 +
          dividendNode.p_up * dividendNode.up_price ^ 2) * (1/10000)) = 1 := by
        rw [round_eq]
        apply Int.floor_eq_iff.mpr
        constructor
        · push_cast; nlinarith
        · push_cast; nlinarith
      have hr2 : round ((10000 * Real.exp (1/3)) * (1/10000 : ℝ)) = 1 := by
        rw [round_eq]
        apply Int.floor_eq_iff.mpr
        constructor
        · push_cast; nlinarith
        · push_cast; nlinarith
      rw [hr1, hr2]
  · rw [htgt, abs_of_pos (by nlinarith), abs_of_neg (by nlinarith)]
    nlinarith

/-- C9 (amended): off the dividend window (where all three invariants hold
exactly), the validation routine accepts, for every tolerance in `(0, 1)`:
the probability-sum assert compares exactly and the sum is exactly 1, and
the two moment checks compare `round`-images of identical reals.  (The
as-stated "raises iff a deviation exceeds the tolerance" is false: see the
counterexample, where a 55% deviation is accepted.) -/
theorem check_conditions_passes_exact_nodes (mkt : MarketData) (dt : ℚ)
    (s : ℝ) (ts : ℚ) (tol : ℚ) (htol : 0 < tol ∧ tol < 1)
    (hstr : ¬ straddlesDividend mkt dt ts) (hs : s ≠ 0)
    (ha1 : calculate_alpha mkt.volatility (dt : ℝ) ≠ 1) :
    checkConditions
      (mkNodeData mkt dt (calculate_alpha mkt.volatility (dt : ℝ)) s ts) tol := by
  have hpos : 0 < calculate_alpha mkt.volatility (dt : ℝ) := Real.exp_pos _
  have ha0 : calculate_alpha mkt.volatility (dt : ℝ) ≠ 0 := ne_of_gt hpos
  have ham : calculate_alpha mkt.volatility (dt : ℝ) ≠ -1 := by
    intro hh; rw [hh] at hpos; linarith
  refine ⟨htol, probability_sum_exact mkt dt _ s ts, ?_, ?_⟩
  · rw [first_moment_exact mkt dt _ s ts ha0]
  · rw [second_moment_exact mkt dt _ s ts hstr hs ha0 ha1 ham]

/-- Witness for C9 (amended) at a concrete non-straddling node with
tolerance `1/2`. -/
theorem check_conditions_passes_exact_nodes_witness :
    (0 < (1/2 : ℚ) ∧ (1/2 : ℚ) < 1) ∧ (100 : ℝ) ≠ 0 ∧
    checkConditions
      (mkNodeData mktDividend (1/3)
        (calculate_alpha mktDividend.volatility ((1/3 : ℚ) : ℝ)) 100 10) (1/2) := by
  have ha1 : calculate_alpha mktDividend.volatility ((1/3 : ℚ) : ℝ) ≠ 1 := by
    unfold calculate_alpha
    rw [Ne, Real.exp_eq_one_iff]
    intro hh
    have h9 : (3 : ℝ) * ((1/3 : ℚ) : ℝ) = 1 := by push_cast; norm_num
    rw [h9, Real.sqrt_one] at hh
    simp [mktDividend] at hh
  exact ⟨⟨by norm_num, by norm_num⟩, by norm_num,
    check_conditions_passes_exact_nodes mktDividend (1/3) 100 10 (1/2)
      ⟨by norm_num, by norm_num⟩ (by simp [straddlesDividend, mktDividend])
      (by norm_num) ha1⟩

section ExtremeFacts

lemma alphaExtreme_eq :
    calculate_alpha mktExtreme.volatility ((3 : ℚ) : ℝ) = Real.exp (7/2) := by
  unfold calculate_alpha
  have h9 : (3 : ℝ) * ((3 : ℚ) : ℝ) = 9 := by push_cast; norm_num
  rw [h9, show (9 : ℝ) = 3 ^ 2 by norm_num, Real.sqrt_sq (by norm_num : (0:ℝ) ≤ 3)]
  congr 1
  simp [mktExtreme]
  norm_num

lemma dfExtreme_eq :
    calculate_discount_factor mktExtreme.interest_rate ((3 : ℚ) : ℝ) = Real.exp 4 := by
  unfold calculate_discount_factor
  congr 1
  simp [mktExtreme]

lemma fwd_price_extreme (s : ℝ) :
    calculate_forward_price s mktExtreme.interest_rate ((3 : ℚ) : ℝ) =
      s * Real.exp (-4) := by
  unfold calculate_forward_price
  congr 2
  simp [mktExtreme]

lemma extreme_no_straddle (ts : ℚ) (h : 0 ≤ ts) :
    ¬ straddlesDividend mktExtreme 3 ts := by
  intro hc
  obtain ⟨-, h2⟩ := hc
  have hd : mktExtreme.dividend_ex_date = -5 := rfl
  rw [hd] at h2
  linarith

lemma extremeNode_forward (s : ℝ) (ts : ℚ) (h : 0 ≤ ts) :
    (mkNodeData mktExtreme 3 (calculate_alpha mktExtreme.volatility ((3 : ℚ) : ℝ))
        s ts).forward_price = s * Real.exp (-4) := by
  rw [mkNodeData_forward_no_straddle _ _ _ _ _ (extreme_no_straddle ts h),
    fwd_price_extreme]

lemma extremeNode_up (s : ℝ) (ts : ℚ) (h : 0 ≤ ts) :
    (mkNodeData mktExtreme 3 (calculate_alpha mktExtreme.volatility ((3 : ℚ) : ℝ))
        s ts).up_price = Real.exp (7/2) * (s * Real.exp (-4)) := by
  rw [mkNodeData_up_price, extremeNode_forward s ts h, alphaExtreme_eq]

lemma extremeNode_down (s : ℝ) (ts : ℚ) (h : 0 ≤ ts) :
    (mkNodeData mktExtreme 3 (calculate_alpha mktExtreme.volatility ((3 : ℚ) : ℝ))
        s ts).down_price = s * Real.exp (-4) / Real.exp (7/2) := by
  rw [mkNodeData_down_price, extremeNode_forward s ts h, alphaExtreme_eq]

lemma extremeNode_p_down (s : ℝ) (ts : ℚ) (h : 0 ≤ ts) (hs : s ≠ 0) :
    (mkNodeData mktExtreme 3 (calculate_alpha mktExtreme.volatility ((3 : ℚ) : ℝ))
        s ts).p_down =
      (Real.exp (49/12) - 1) /
        ((1 - Real.exp (7/2)) * (Real.exp (7/2) ^ (-2 : ℤ) - 1)) := by
  rw [mkNodeData_p_down_no_straddle _ _ _ _ _ (extreme_no_straddle ts h) hs,
    alphaExtreme_eq]
  congr 2
  simp [mktExtreme]
  norm_num

lemma extremeNode_p_up (s : ℝ) (ts : ℚ) :
    (mkNodeData mktExtreme 3 (calculate_alpha mktExtreme.volatility ((3 : ℚ) : ℝ))
        s ts).p_up =
      (mkNodeData mktExtreme 3 (calculate_alpha mktExtreme.volatility ((3 : ℚ) : ℝ))
        s ts).p_down / Real.exp (7/2) := by
  rw [mkNodeData_p_up, alphaExtreme_eq]

end ExtremeFacts

section ExtremeBounds

lemma exp_cubed_bounds : (20.0855 : ℝ) < Real.exp 1 ^ 3 ∧ Real.exp 1 ^ 3 < 20.08554 := by
  constructor
  · have h : (2.7182818283 : ℝ) ^ 3 ≤ Real.exp 1 ^ 3 :=
      pow_le_pow_left₀ (by norm_num) (le_of_lt Real.exp_one_gt_d9) 3
    exact lt_of_lt_of_le (by norm_num) h
  · have h : Real.exp 1 ^ 3 ≤ (2.7182818286 : ℝ) ^ 3 :=
      pow_le_pow_left₀ (le_of_lt (Real.exp_pos 1)) (le_of_lt Real.exp_one_lt_d9) 3
    exact lt_of_le_of_lt h (by norm_num)

lemma exp_fourth_bounds : (54.598 : ℝ) < Real.exp 1 ^ 4 ∧ Real.exp 1 ^ 4 < 54.5982 := by
  constructor
  · have h : (2.7182818283 : ℝ) ^ 4 ≤ Real.exp 1 ^ 4 :=
      pow_le_pow_left₀ (by norm_num) (le_of_lt Real.exp_one_gt_d9) 4
    exact lt_of_lt_of_le (by norm_num) h
  · have h : Real.exp 1 ^ 4 ≤ (2.7182818286 : ℝ) ^ 4 :=
      pow_le_pow_left₀ (le_of_lt (Real.exp_pos 1)) (le_of_lt Real.exp_one_lt_d9) 4
    exact lt_of_le_of_lt h (by norm_num)

lemma exp4_pow_eq : Real.exp 4 = Real.exp 1 ^ 4 := by
  rw [← Real.exp_nat_mul]; norm_num

lemma exp35_split : Real.exp (7/2) = Real.exp 1 ^ 3 * Real.exp (1/2) := by
  rw [← Real.exp_nat_mul, ← Real.exp_add]; norm_num

lemma exp4912_split : Real.exp (49/12) = Real.exp 4 * Real.exp (1/12) := by
  rw [← Real.exp_add]; norm_num

lemma exp35_bounds : (33.11 : ℝ) < Real.exp (7/2) ∧ Real.exp (7/2) < 33.12 := by
  obtain ⟨h3a, h3b⟩ := exp_cubed_bounds
  obtain ⟨hXa, hXb⟩ := exp_half_bounds
  rw [exp35_split]
  constructor <;> nlinarith

lemma exp4_bounds : (54.598 : ℝ) < Real.exp 4 ∧ Real.exp 4 < 54.5982 := by
  rw [exp4_pow_eq]; exact exp_fourth_bounds

lemma exp4912_bounds :
    (59.342 : ℝ) < Real.exp (49/12) ∧ Real.exp (49/12) < 59.3434 := by
  obtain ⟨h4a, h4b⟩ := exp4_bounds
  obtain ⟨hYa, hYb⟩ := exp_twelfth_bounds
  rw [exp4912_split]
  constructor <;> nlinarith

lemma exp_neg_one_bounds :
    (0.367879 : ℝ) < Real.exp (-1) ∧ Real.exp (-1) < 0.36788 := by
  have hE1 := Real.exp_one_gt_d9
  have hE2 := Real.exp_one_lt_d9
  have hpos : (0 : ℝ) < Real.exp 1 := Real.exp_pos 1
  rw [show ((-1 : ℝ)) = -(1 : ℝ) by norm_num, Real.exp_neg]
  have hmul : (Real.exp 1)⁻¹ * Real.exp 1 = 1 := inv_mul_cancel₀ (ne_of_gt hpos)
  constructor <;> nlinarith

lemma exp_neg_four_bounds :
    (0.0183156 : ℝ) < Real.exp (-4) ∧ Real.exp (-4) < 0.0183158 := by
  obtain ⟨h4a, h4b⟩ := exp4_bounds
  have hpos : (0 : ℝ) < Real.exp 4 := Real.exp_pos 4
  rw [show ((-4 : ℝ)) = -(4 : ℝ) by norm_num, Real.exp_neg]
  have hmul : (Real.exp 4)⁻¹ * Real.exp 4 = 1 := inv_mul_cancel₀ (ne_of_gt hpos)
  constructor <;> nlinarith

lemma exp_neg_half_bounds :
    (0.6065 : ℝ) < Real.exp (-(1/2)) ∧ Real.exp (-(1/2)) < 0.60654 := by
  obtain ⟨hXa, hXb⟩ := exp_half_bounds
  have hpos : (0 : ℝ) < Real.exp (1/2) := Real.exp_pos _
  rw [Real.exp_neg]
  have hmul : (Real.exp (1/2))⁻¹ * Real.exp (1/2) = 1 := inv_mul_cancel₀ (ne_of_gt hpos)
  constructor <;> nlinarith

lemma exp_neg_92_bounds :
    (0.011108 : ℝ) < Real.exp (-(9/2)) ∧ Real.exp (-(9/2)) < 0.01111 := by
  obtain ⟨h4a, h4b⟩ := exp4_bounds
  obtain ⟨hXa, hXb⟩ := exp_half_bounds
  have hsplit : Real.exp (9/2 : ℝ) = Real.exp 4 * Real.exp (1/2) := by
    rw [← Real.exp_add]; norm_num
  have hpos : (0 : ℝ) < Real.exp (9/2 : ℝ) := Real.exp_pos _
  have hb1 : (90.0157 : ℝ) < Real.exp (9/2 : ℝ) := by rw [hsplit]; nlinarith
  have hb2 : Real.exp (9/2 : ℝ) < 90.0216 := by rw [hsplit]; nlinarith
  rw [Real.exp_neg]
  have hmul : (Real.exp (9/2 : ℝ))⁻¹ * Real.exp (9/2 : ℝ) = 1 :=
    inv_mul_cancel₀ (ne_of_gt hpos)
  constructor <;> nlinarith

lemma exp_le_em5 (x : ℝ) (hx : x ≤ -5) : Real.exp x ≤ 1/100 := by
  have h1 : Real.exp x ≤ Real.exp (-5 : ℝ) := Real.exp_le_exp.mpr hx
  have h2 : Real.exp (-5 : ℝ) = (Real.exp 1 ^ 5)⁻¹ := by
    rw [show ((-5 : ℝ)) = -(5 : ℝ) by norm_num, Real.exp_neg, ← Real.exp_nat_mul]
    norm_num
  have h3 : (148.4 : ℝ) < Real.exp 1 ^ 5 := by
    have h : (2.7182818283 : ℝ) ^ 5 ≤ Real.exp 1 ^ 5 :=
      pow_le_pow_left₀ (by norm_num) (le_of_lt Real.exp_one_gt_d9) 5
    exact lt_of_lt_of_le (by norm_num) h
  have hpos : (0 : ℝ) < Real.exp 1 ^ 5 := by positivity
  have hmul : (Real.exp 1 ^ 5)⁻¹ * Real.exp 1 ^ 5 = 1 := inv_mul_cancel₀ (ne_of_gt hpos)
  rw [h2] at h1
  nlinarith

lemma extremeP_bounds :
    (1.818 : ℝ) < (Real.exp (49/12) - 1) /
        ((1 - Real.exp (7/2)) * (Real.exp (7/2) ^ (-2 : ℤ) - 1)) ∧
      (Real.exp (49/12) - 1) /
        ((1 - Real.exp (7/2)) * (Real.exp (7/2) ^ (-2 : ℤ) - 1)) < 1.8187 := by
  obtain ⟨hWa, hWb⟩ := exp4912_bounds
  obtain ⟨hAa, hAb⟩ := exp35_bounds
  simp only [zpow_neg_two_eq]
  have hsqpos : (0 : ℝ) < Real.exp (7/2) ^ 2 := by positivity
  have hsq1 : (1096.27 : ℝ) < Real.exp (7/2) ^ 2 := by nlinarith
  have hsq2 : Real.exp (7/2) ^ 2 < 1096.95 := by nlinarith
  have hImul : (Real.exp (7/2) ^ 2)⁻¹ * Real.exp (7/2) ^ 2 = 1 :=
    inv_mul_cancel₀ (ne_of_gt hsqpos)
  have hI1 : (0.000911 : ℝ) < (Real.exp (7/2) ^ 2)⁻¹ := by nlinarith
  have hI2 : (Real.exp (7/2) ^ 2)⁻¹ < 0.000913 := by nlinarith
  have hD1 : (32.08 : ℝ) < (1 - Real.exp (7/2)) * ((Real.exp (7/2) ^ 2)⁻¹ - 1) := by
    nlinarith
  have hD2 : (1 - Real.exp (7/2)) * ((Real.exp (7/2) ^ 2)⁻¹ - 1) < 32.091 := by
    nlinarith
  have hDpos : (0 : ℝ) < (1 - Real.exp (7/2)) * ((Real.exp (7/2) ^ 2)⁻¹ - 1) := by
    linarith
  constructor
  · rw [lt_div_iff₀ hDpos]; nlinarith
  · rw [div_lt_iff₀ hDpos]; nlinarith

end ExtremeBounds

section ExtremeDepthOne

lemma extreme_depth1_eu (s : ℝ) (ts : ℚ) :
    (buildSubtree mktExtreme 3
        (calculate_alpha mktExtreme.volatility ((3 : ℚ) : ℝ)) 1 s ts).price
        (Real.exp 4) (extremeCall .eu) =
      Real.exp 4 *
        ((mkNodeData mktExtreme 3
            (calculate_alpha mktExtreme.volatility ((3 : ℚ) : ℝ)) s ts).p_up *
          max ((mkNodeData mktExtreme 3
            (calculate_alpha mktExtreme.volatility ((3 : ℚ) : ℝ)) s ts).up_price - 1/100) 0 +
        (mkNodeData mktExtreme 3
            (calculate_alpha mktExtreme.volatility ((3 : ℚ) : ℝ)) s ts).p_mid *
          max ((mkNodeData mktExtreme 3
            (calculate_alpha mktExtreme.volatility ((3 : ℚ) : ℝ)) s ts).forward_price - 1/100) 0 +
        (mkNodeData mktExtreme 3
            (calculate_alpha mktExtreme.volatility ((3 : ℚ) : ℝ)) s ts).p_down *
          max ((mkNodeData mktExtreme 3
            (calculate_alpha mktExtreme.volatility ((3 : ℚ) : ℝ)) s ts).down_price - 1/100) 0) := by
  rw [show buildSubtree mktExtreme 3
      (calculate_alpha mktExtreme.volatility ((3 : ℚ) : ℝ)) 1 s ts =
    PTree.branch
      (mkNodeData mktExtreme 3 (calculate_alpha mktExtreme.volatility ((3 : ℚ) : ℝ)) s ts)
      (.leaf (mkNodeData mktExtreme 3 (calculate_alpha mktExtreme.volatility ((3 : ℚ) : ℝ))
        (mkNodeData mktExtreme 3 (calculate_alpha mktExtreme.volatility ((3 : ℚ) : ℝ)) s ts).up_price
        (ts + 3 * 365)))
      (.leaf (mkNodeData mktExtreme 3 (calculate_alpha mktExtreme.volatility ((3 : ℚ) : ℝ))
        (mkNodeData mktExtreme 3 (calculate_alpha mktExtreme.volatility ((3 : ℚ) : ℝ)) s ts).forward_price
        (ts + 3 * 365)))
      (.leaf (mkNodeData mktExtreme 3 (calculate_alpha mktExtreme.volatility ((3 : ℚ) : ℝ))
        (mkNodeData mktExtreme 3 (calculate_alpha mktExtreme.volatility ((3 : ℚ) : ℝ)) s ts).down_price
        (ts + 3 * 365)))
    from rfl]
  rw [price_branch_eu _ _ rfl, price_leaf, price_leaf, price_leaf]
  rfl

lemma extreme_depth1_us (s : ℝ) (ts : ℚ) :
    (buildSubtree mktExtreme 3
        (calculate_alpha mktExtreme.volatility ((3 : ℚ) : ℝ)) 1 s ts).price
        (Real.exp 4) (extremeCall .us) =
      max (Real.exp 4 *
        ((mkNodeData mktExtreme 3
            (calculate_alpha mktExtreme.volatility ((3 : ℚ) : ℝ)) s ts).p_up *
          max ((mkNodeData mktExtreme 3
            (calculate_alpha mktExtreme.volatility ((3 : ℚ) : ℝ)) s ts).up_price - 1/100) 0 +
        (mkNodeData mktExtreme 3
            (calculate_alpha mktExtreme.volatility ((3 : ℚ) : ℝ)) s ts).p_mid *
          max ((mkNodeData mktExtreme 3
            (calculate_alpha mktExtreme.volatility ((3 : ℚ) : ℝ)) s ts).forward_price - 1/100) 0 +
        (mkNodeData mktExtreme 3
            (calculate_alpha mktExtreme.volatility ((3 : ℚ) : ℝ)) s ts).p_down *
          max ((mkNodeData mktExtreme 3
            (calculate_alpha mktExtreme.volatility ((3 : ℚ) : ℝ)) s ts).down_price - 1/100) 0))
        (max (s - 1/100) 0) := by
  rw [show buildSubtree mktExtreme 3
      (calculate_alpha mktExtreme.volatility ((3 : ℚ) : ℝ)) 1 s ts =
    PTree.branch
      (mkNodeData mktExtreme 3 (calculate_alpha mktExtreme.volatility ((3 : ℚ) : ℝ)) s ts)
      (.leaf (mkNodeData mktExtreme 3 (calculate_alpha mktExtreme.volatility ((3 : ℚ) : ℝ))
        (mkNodeData mktExtreme 3 (calculate_alpha mktExtreme.volatility ((3 : ℚ) : ℝ)) s ts).up_price
        (ts + 3 * 365)))
      (.leaf (mkNodeData mktExtreme 3 (calculate_alpha mktExtreme.volatility ((3 : ℚ) : ℝ))
        (mkNodeData mktExtreme 3 (calculate_alpha mktExtreme.volatility ((3 : ℚ) : ℝ)) s ts).forward_price
        (ts + 3 * 365)))
      (.leaf (mkNodeData mktExtreme 3 (calculate_alpha mktExtreme.volatility ((3 : ℚ) : ℝ))
        (mkNodeData mktExtreme 3 (calculate_alpha mktExtreme.volatility ((3 : ℚ) : ℝ)) s ts).down_price
        (ts + 3 * 365)))
    from rfl]
  rw [price_branch_us _ _ rfl, price_leaf, price_leaf, price_leaf]
  rfl

end ExtremeDepthOne

section ExtremePrimed

lemma extremeP_bounds' : (1.818 : ℝ) < extremeP ∧ extremeP < 1.8187 :=
  extremeP_bounds

lemma extremePu_bounds : (0.05489 : ℝ) < extremePu ∧ extremePu < 0.05493 := by
  obtain ⟨hPa, hPb⟩ := extremeP_bounds'
  obtain ⟨hAa, hAb⟩ := exp35_bounds
  have hA0 : Real.exp (7/2) ≠ 0 := Real.exp_ne_zero _
  have hq : extremePu * Real.exp (7/2) = extremeP := div_mul_cancel₀ _ hA0
  constructor <;> nlinarith

lemma extremePm_bounds : (-0.8737 : ℝ) < extremePm ∧ extremePm < -0.8728 := by
  obtain ⟨hPa, hPb⟩ := extremeP_bounds'
  obtain ⟨hqa, hqb⟩ := extremePu_bounds
  unfold extremePm
  constructor <;> linarith

lemma extremeNode_p_down' (s : ℝ) (ts : ℚ) (h : 0 ≤ ts) (hs : s ≠ 0) :
    (mkNodeData mktExtreme 3 (calculate_alpha mktExtreme.volatility ((3 : ℚ) : ℝ))
        s ts).p_down = extremeP :=
  extremeNode_p_down s ts h hs

lemma extremeNode_p_up' (s : ℝ) (ts : ℚ) (h : 0 ≤ ts) (hs : s ≠ 0) :
    (mkNodeData mktExtreme 3 (calculate_alpha mktExtreme.volatility ((3 : ℚ) : ℝ))
        s ts).p_up = extremePu := by
  rw [extremeNode_p_up, extremeNode_p_down' s ts h hs]
  rfl

lemma extremeNode_p_mid' (s : ℝ) (ts : ℚ) (h : 0 ≤ ts) (hs : s ≠ 0) :
    (mkNodeData mktExtreme 3 (calculate_alpha mktExtreme.volatility ((3 : ℚ) : ℝ))
        s ts).p_mid = extremePm := by
  rw [mkNodeData_p_mid, extremeNode_p_down' s ts h hs, extremeNode_p_up' s ts h hs]
  rfl

end ExtremePrimed

section ExtremeValue

/-- Leaf payoffs of the extreme lattice that are in the money. -/
lemma max_em1 : max (Real.exp (-1) - 1/100) 0 = Real.exp (-1) - 1/100 :=
  max_eq_left (by have := exp_neg_one_bounds.1; linarith)

lemma max_em92 : max (Real.exp (-(9/2)) - 1/100) 0 = Real.exp (-(9/2)) - 1/100 :=
  max_eq_left (by have := exp_neg_92_bounds.1; linarith)

lemma max_em4 : max (Real.exp (-4) - 1/100) 0 = Real.exp (-4) - 1/100 :=
  max_eq_left (by have := exp_neg_four_bounds.1; linarith)

/-- Leaf payoffs of the extreme lattice that are out of the money. -/
lemma max_em8 : max (Real.exp (-8) - 1/100) 0 = 0 :=
  max_eq_right (by have := exp_le_em5 (-8) (by norm_num); linarith)

lemma max_em232 : max (Real.exp (-(23/2)) - 1/100) 0 = 0 :=
  max_eq_right (by have := exp_le_em5 (-(23/2)) (by norm_num); linarith)

lemma max_em15 : max (Real.exp (-15) - 1/100) 0 = 0 :=
  max_eq_right (by have := exp_le_em5 (-15) (by norm_num); linarith)

lemma max_em152 : max (Real.exp (-(15/2)) - 1/100) 0 = 0 :=
  max_eq_right (by have := exp_le_em5 (-(15/2)) (by norm_num); linarith)

/-- The lowest first-generation node of the extreme lattice is worthless. -/
lemma extreme_down_zero :
    Real.exp 4 * (extremePu * 0 + extremePm * 0 + extremeP * 0) = 0 := by ring

lemma extreme_t1_bounds :
    (0.01964 : ℝ) < extremePu * (Real.exp (-1) - 1/100) ∧
      extremePu * (Real.exp (-1) - 1/100) < 0.01966 := by
  obtain ⟨hqa, hqb⟩ := extremePu_bounds
  obtain ⟨h1a, h1b⟩ := exp_neg_one_bounds
  constructor <;> nlinarith

lemma extreme_t2_bounds :
    (-0.00097 : ℝ) < extremePm * (Real.exp (-(9/2)) - 1/100) ∧
      extremePm * (Real.exp (-(9/2)) - 1/100) < -0.000966 := by
  obtain ⟨hma, hmb⟩ := extremePm_bounds
  obtain ⟨h92a, h92b⟩ := exp_neg_92_bounds
  constructor <;> nlinarith

/-- Continuation value of the up node of the first generation. -/
lemma extreme_contU_bounds :
    (1.019 : ℝ) < Real.exp 4 * (extremePu * (Real.exp (-1) - 1/100) +
        extremePm * (Real.exp (-(9/2)) - 1/100) + extremeP * 0) ∧
      Real.exp 4 * (extremePu * (Real.exp (-1) - 1/100) +
        extremePm * (Real.exp (-(9/2)) - 1/100) + extremeP * 0) < 1.0207 := by
  obtain ⟨t1a, t1b⟩ := extreme_t1_bounds
  obtain ⟨t2a, t2b⟩ := extreme_t2_bounds
  obtain ⟨hE4a, hE4b⟩ := exp4_bounds
  rw [mul_zero, add_zero]
  constructor <;> nlinarith

/-- The up node of the first generation does not exercise early. -/
lemma extreme_up_no_exercise :
    max (Real.exp (-(1/2)) - 1/100) 0 ≤
      Real.exp 4 * (extremePu * (Real.exp (-1) - 1/100) +
        extremePm * (Real.exp (-(9/2)) - 1/100) + extremeP * 0) := by
  obtain ⟨hCU1, -⟩ := extreme_contU_bounds
  obtain ⟨-, h05b⟩ := exp_neg_half_bounds
  apply max_le <;> linarith

/-- The middle node of the first generation exercises early: its
continuation value is strictly below its immediate payoff. -/
lemma extreme_mid_exercises :
    Real.exp 4 * (extremePu * (Real.exp (-(9/2)) - 1/100) +
        extremePm * 0 + extremeP * 0) < Real.exp (-4) - 1/100 := by
  obtain ⟨hqa, hqb⟩ := extremePu_bounds
  obtain ⟨h92a, h92b⟩ := exp_neg_92_bounds
  obtain ⟨hE4a, hE4b⟩ := exp4_bounds
  obtain ⟨h4a, -⟩ := exp_neg_four_bounds
  rw [mul_zero, mul_zero, add_zero, add_zero]
  have t3a : (0 : ℝ) < extremePu * (Real.exp (-(9/2)) - 1/100) :=
    mul_pos (by linarith) (by linarith)
  have t3b : extremePu * (Real.exp (-(9/2)) - 1/100) < 0.000061 := by nlinarith
  nlinarith

/-- Lower bound on the continuation value of the root when the middle child
has exercised. -/
lemma extreme_root_cont_lower :
    (2.65 : ℝ) < Real.exp 4 *
      (extremePu * (Real.exp 4 * (extremePu * (Real.exp (-1) - 1/100) +
          extremePm * (Real.exp (-(9/2)) - 1/100) + extremeP * 0)) +
        extremePm * (Real.exp (-4) - 1/100) + extremeP * 0) := by
  obtain ⟨hCU1, hCU2⟩ := extreme_contU_bounds
  set C := Real.exp 4 * (extremePu * (Real.exp (-1) - 1/100) +
    extremePm * (Real.exp (-(9/2)) - 1/100) + extremeP * 0) with hC
  obtain ⟨hqa, hqb⟩ := extremePu_bounds
  obtain ⟨hma, hmb⟩ := extremePm_bounds
  obtain ⟨hE4a, hE4b⟩ := exp4_bounds
  obtain ⟨h4a, h4b⟩ := exp_neg_four_bounds
  rw [mul_zero, add_zero]
  have t5a : (0.05593 : ℝ) < extremePu * C := by nlinarith
  have t4a : (-0.007266 : ℝ) < extremePm * (Real.exp (-4) - 1/100) := by nlinarith
  nlinarith

/-- The root of the extreme lattice does not exercise early. -/
lemma extreme_root_no_exercise :
    max ((1 : ℝ) - 1/100) 0 ≤ Real.exp 4 *
      (extremePu * (Real.exp 4 * (extremePu * (Real.exp (-1) - 1/100) +
          extremePm * (Real.exp (-(9/2)) - 1/100) + extremeP * 0)) +
        extremePm * (Real.exp (-4) - 1/100) + extremeP * 0) := by
  have h := extreme_root_cont_lower
  apply max_le <;> linarith

end ExtremeValue

set_option maxHeartbeats 3000000 in
/-- C7 (counterexample to the claim as stated): both prices are defined, yet
the American lattice price is strictly *below* the European one.  On
`mktExtreme` (rate `-4/3`, volatility `7/6`, spot `1`, no dividend) with the
call of strike `1/100` maturing in `2190` days priced over `n_steps = 2`,
`delta_t = 3` makes `alpha = exp(7/2)` so large that `p_mid ≈ -0.873 < 0`;
the middle child of the root exercises early (its continuation `≈ 0.0033`
is below its payoff `≈ 0.0083`), and that increase is weighted by the
*negative* `p_mid`, pushing the American root value (`≈ 2.66`) strictly
under the European one (`≈ 2.90`). -/
theorem american_below_european_counterexample :
    treeValue mktExtreme 0 2 (extremeCall .us) <
      treeValue mktExtreme 0 2 (extremeCall .eu) ∧
    TrinomialTree.price mktExtreme 0 2 (extremeCall .us) =
      .ok (treeValue mktExtreme 0 2 (extremeCall .us)) ∧
    TrinomialTree.price mktExtreme 0 2 (extremeCall .eu) =
      .ok (treeValue mktExtreme 0 2 (extremeCall .eu)) := by
  -- delta_t = |((2190 - 0) / 2) / 365| = 3
  have hd3 : ∀ et : ExerciseType,
      |((((extremeCall et).maturity_date : ℚ) - ((0 : ℤ) : ℚ)) / ((2 : ℤ) : ℚ)) / 365|
        = 3 := by
    intro et
    have hm : (((extremeCall et).maturity_date : ℚ)) = 2190 := by
      simp only [extremeCall]; norm_num
    rw [hm, show (((2190 : ℚ) - ((0 : ℤ) : ℚ)) / ((2 : ℤ) : ℚ)) / 365 = (3 : ℚ) by
      push_cast; norm_num]
    norm_num
  have hok : ∀ et, TrinomialTree.price mktExtreme 0 2 (extremeCall et) =
      .ok (treeValue mktExtreme 0 2 (extremeCall et)) := by
    intro et
    have h1 : (0 : ℤ) < (extremeCall et).maturity_date := by
      simp only [extremeCall]; norm_num
    unfold TrinomialTree.price
    rw [if_pos h1, if_neg (by norm_num : ¬ (2 : ℤ) = 0)]
    dsimp only
    rw [hd3 et]
    rw [if_neg (calculate_forward_price_ne_zero mktExtreme.spot_price
      mktExtreme.interest_rate ((3 : ℚ) : ℝ) (by simp only [mktExtreme]; norm_num))]
    rw [if_neg (calculate_alpha_ne_one mktExtreme.volatility ((3 : ℚ) : ℝ)
      (by simp only [mktExtreme]; norm_num)
      (by exact_mod_cast (by norm_num : (0 : ℚ) < 3)))]
    rw [show ((2 : ℤ)).toNat = 2 from rfl]
    rw [if_pos (buildSubtree_esperancesNonzero mktExtreme 3
      (calculate_alpha mktExtreme.volatility ((3 : ℚ) : ℝ)) rfl
      (by unfold calculate_alpha; exact Real.exp_ne_zero _) 2
      mktExtreme.spot_price ((0 : ℤ) : ℚ) (by simp only [mktExtreme]; norm_num))]
  refine ⟨?_, hok .us, hok .eu⟩
  have htv : ∀ et, treeValue mktExtreme 0 2 (extremeCall et) =
      (buildSubtree mktExtreme 3
        (calculate_alpha mktExtreme.volatility ((3 : ℚ) : ℝ)) 2
        mktExtreme.spot_price ((0 : ℤ) : ℚ)).price
        (calculate_discount_factor mktExtreme.interest_rate ((3 : ℚ) : ℝ))
        (extremeCall et) := by
    intro et
    unfold treeValue
    dsimp only
    rw [hd3 et, show ((2 : ℤ)).toNat = 2 from rfl]
  rw [htv .us, htv .eu, dfExtreme_eq, show mktExtreme.spot_price = (1 : ℝ) from rfl]
  clear htv hd3 hok
  -- unfold the two-generation lattice below the root
  rw [show buildSubtree mktExtreme 3
      (calculate_alpha mktExtreme.volatility ((3 : ℚ) : ℝ)) 2 (1 : ℝ) ((0 : ℤ) : ℚ) =
    PTree.branch
      (mkNodeData mktExtreme 3 (calculate_alpha mktExtreme.volatility ((3 : ℚ) : ℝ))
        1 ((0 : ℤ) : ℚ))
      (buildSubtree mktExtreme 3 (calculate_alpha mktExtreme.volatility ((3 : ℚ) : ℝ)) 1
        (mkNodeData mktExtreme 3 (calculate_alpha mktExtreme.volatility ((3 : ℚ) : ℝ))
          1 ((0 : ℤ) : ℚ)).up_price (((0 : ℤ) : ℚ) + 3 * 365))
      (buildSubtree mktExtreme 3 (calculate_alpha mktExtreme.volatility ((3 : ℚ) : ℝ)) 1
        (mkNodeData mktExtreme 3 (calculate_alpha mktExtreme.volatility ((3 : ℚ) : ℝ))
          1 ((0 : ℤ) : ℚ)).forward_price (((0 : ℤ) : ℚ) + 3 * 365))
      (buildSubtree mktExtreme 3 (calculate_alpha mktExtreme.volatility ((3 : ℚ) : ℝ)) 1
        (mkNodeData mktExtreme 3 (calculate_alpha mktExtreme.volatility ((3 : ℚ) : ℝ))
          1 ((0 : ℤ) : ℚ)).down_price (((0 : ℤ) : ℚ) + 3 * 365))
    from rfl]
  rw [price_branch_us _ (extremeCall .us) rfl, price_branch_eu _ (extremeCall .eu) rfl]
  rw [mkNodeData_spot]
  -- spots of the first generation
  have hts0 : (0 : ℚ) ≤ ((0 : ℤ) : ℚ) := by norm_num
  have hts1 : (0 : ℚ) ≤ ((0 : ℤ) : ℚ) + 3 * 365 := by norm_num
  have hup0 : (mkNodeData mktExtreme 3
      (calculate_alpha mktExtreme.volatility ((3 : ℚ) : ℝ)) 1 ((0 : ℤ) : ℚ)).up_price =
      Real.exp (-(1/2)) := by
    rw [extremeNode_up 1 ((0 : ℤ) : ℚ) hts0, one_mul, ← Real.exp_add]
    congr 1
    norm_num
  have hfwd0 : (mkNodeData mktExtreme 3
      (calculate_alpha mktExtreme.volatility ((3 : ℚ) : ℝ)) 1 ((0 : ℤ) : ℚ)).forward_price =
      Real.exp (-4) := by
    rw [extremeNode_forward 1 ((0 : ℤ) : ℚ) hts0, one_mul]
  have hdn0 : (mkNodeData mktExtreme 3
      (calculate_alpha mktExtreme.volatility ((3 : ℚ) : ℝ)) 1 ((0 : ℤ) : ℚ)).down_price =
      Real.exp (-(15/2)) := by
    rw [extremeNode_down 1 ((0 : ℤ) : ℚ) hts0, one_mul, div_eq_mul_inv, ← Real.exp_neg,
      ← Real.exp_add]
    congr 1
    norm_num
  rw [hup0, hfwd0, hdn0]
  clear hup0 hfwd0 hdn0
  -- expand the three depth-one subtrees
  rw [extreme_depth1_us (Real.exp (-(1/2))) (((0 : ℤ) : ℚ) + 3 * 365),
    extreme_depth1_us (Real.exp (-4)) (((0 : ℤ) : ℚ) + 3 * 365),
    extreme_depth1_us (Real.exp (-(15/2))) (((0 : ℤ) : ℚ) + 3 * 365),
    extreme_depth1_eu (Real.exp (-(1/2))) (((0 : ℤ) : ℚ) + 3 * 365),
    extreme_depth1_eu (Real.exp (-4)) (((0 : ℤ) : ℚ) + 3 * 365),
    extreme_depth1_eu (Real.exp (-(15/2))) (((0 : ℤ) : ℚ) + 3 * 365)]
  -- probabilities are the same at every node
  rw [extremeNode_p_down' 1 ((0 : ℤ) : ℚ) hts0 one_ne_zero,
    extremeNode_p_up' 1 ((0 : ℤ) : ℚ) hts0 one_ne_zero,
    extremeNode_p_mid' 1 ((0 : ℤ) : ℚ) hts0 one_ne_zero,
    extremeNode_p_down' (Real.exp (-(1/2))) (((0 : ℤ) : ℚ) + 3 * 365) hts1
      (Real.exp_ne_zero _),
    extremeNode_p_up' (Real.exp (-(1/2))) (((0 : ℤ) : ℚ) + 3 * 365) hts1
      (Real.exp_ne_zero _),
    extremeNode_p_mid' (Real.exp (-(1/2))) (((0 : ℤ) : ℚ) + 3 * 365) hts1
      (Real.exp_ne_zero _),
    extremeNode_p_down' (Real.exp (-4)) (((0 : ℤ) : ℚ) + 3 * 365) hts1
      (Real.exp_ne_zero _),
    extremeNode_p_up' (Real.exp (-4)) (((0 : ℤ) : ℚ) + 3 * 365) hts1
      (Real.exp_ne_zero _),
    extremeNode_p_mid' (Real.exp (-4)) (((0 : ℤ) : ℚ) + 3 * 365) hts1
      (Real.exp_ne_zero _),
    extremeNode_p_down' (Real.exp (-(15/2))) (((0 : ℤ) : ℚ) + 3 * 365) hts1
      (Real.exp_ne_zero _),
    extremeNode_p_up' (Real.exp (-(15/2))) (((0 : ℤ) : ℚ) + 3 * 365) hts1
      (Real.exp_ne_zero _),
    extremeNode_p_mid' (Real.exp (-(15/2))) (((0 : ℤ) : ℚ) + 3 * 365) hts1
      (Real.exp_ne_zero _)]
  -- spots of the second generation
  rw [extremeNode_up (Real.exp (-(1/2))) (((0 : ℤ) : ℚ) + 3 * 365) hts1,
    extremeNode_forward (Real.exp (-(1/2))) (((0 : ℤ) : ℚ) + 3 * 365) hts1,
    extremeNode_down (Real.exp (-(1/2))) (((0 : ℤ) : ℚ) + 3 * 365) hts1,
    extremeNode_up (Real.exp (-4)) (((0 : ℤ) : ℚ) + 3 * 365) hts1,
    extremeNode_forward (Real.exp (-4)) (((0 : ℤ) : ℚ) + 3 * 365) hts1,
    extremeNode_down (Real.exp (-4)) (((0 : ℤ) : ℚ) + 3 * 365) hts1,
    extremeNode_up (Real.exp (-(15/2))) (((0 : ℤ) : ℚ) + 3 * 365) hts1,
    extremeNode_forward (Real.exp (-(15/2))) (((0 : ℤ) : ℚ) + 3 * 365) hts1,
    extremeNode_down (Real.exp (-(15/2))) (((0 : ℤ) : ℚ) + 3 * 365) hts1]
  clear hts0 hts1
  -- collapse products of exponentials into single exponentials
  have hc2 : Real.exp (-(1/2)) * Real.exp (-4) = Real.exp (-(9/2)) := by
    rw [← Real.exp_add]; congr 1; norm_num
  have hc1 : Real.exp (7/2) * (Real.exp (-(1/2)) * Real.exp (-4)) = Real.exp (-1) := by
    rw [hc2, ← Real.exp_add]; congr 1; norm_num
  have hc3 : Real.exp (-(1/2)) * Real.exp (-4) / Real.exp (7/2) = Real.exp (-8) := by
    rw [hc2, div_eq_mul_inv, ← Real.exp_neg, ← Real.exp_add]; congr 1; norm_num
  have hc5 : Real.exp (-4) * Real.exp (-4) = Real.exp (-8) := by
    rw [← Real.exp_add]; congr 1; norm_num
  have hc4 : Real.exp (7/2) * (Real.exp (-4) * Real.exp (-4)) = Real.exp (-(9/2)) := by
    rw [hc5, ← Real.exp_add]; congr 1; norm_num
  have hc6 : Real.exp (-4) * Real.exp (-4) / Real.exp (7/2) = Real.exp (-(23/2)) := by
    rw [hc5, div_eq_mul_inv, ← Real.exp_neg, ← Real.exp_add]; congr 1; norm_num
  have hc8 : Real.exp (-(15/2)) * Real.exp (-4) = Real.exp (-(23/2)) := by
    rw [← Real.exp_add]; congr 1; norm_num
  have hc7 : Real.exp (7/2) * (Real.exp (-(15/2)) * Real.exp (-4)) = Real.exp (-8) := by
    rw [hc8, ← Real.exp_add]; congr 1; norm_num
  have hc9 : Real.exp (-(15/2)) * Real.exp (-4) / Real.exp (7/2) = Real.exp (-15) := by
    rw [hc8, div_eq_mul_inv, ← Real.exp_neg, ← Real.exp_add]; congr 1; norm_num
  rw [hc1, hc3, hc2, hc4, hc6, hc5, hc7, hc9, hc8]
  clear hc1 hc2 hc3 hc4 hc5 hc6 hc7 hc8 hc9
  -- leaf payoffs: in the money above the strike 1/100, worthless below
  rw [max_em1, max_em92, max_em4, max_em8, max_em232, max_em15, max_em152]
  rw [extreme_down_zero, max_self]
  -- resolve the three American maxes and the root payoff
  rw [max_eq_left extreme_up_no_exercise]
  rw [max_eq_right (le_of_lt extreme_mid_exercises)]
  rw [show OptionContract.payoff (extremeCall .us) 1 = max ((1 : ℝ) - 1/100) 0
    from rfl]
  rw [max_eq_left extreme_root_no_exercise]
  -- early exercise at the middle node, weighted by the negative p_mid,
  -- strictly lowers the American root value
  have hpmneg : extremePm < 0 := lt_trans extremePm_bounds.2 (by norm_num)
  exact mul_lt_mul_of_pos_left
    (add_lt_add_right
      (add_lt_add_left (mul_lt_mul_of_neg_left extreme_mid_exercises hpmneg) _) _)
    (Real.exp_pos 4)

/-- Witness for C10: a trivially built one-node lattice (all probabilities
vacuously in `[0, 1]`) and unit discount factor give a nonnegative value. -/
theorem price_nonneg_of_probs_in_unit_witness :
    (0 : ℝ) ≤ 1 ∧
    (PTree.leaf ⟨5, 0, 0, 0, 0, 0, 0, 0, 0⟩).probsInUnit ∧
    0 ≤ (PTree.leaf (⟨5, 0, 0, 0, 0, 0, 0, 0, 0⟩ : NodeData)).price 1
        ⟨.call, .eu, 3, 100⟩ :=
  ⟨zero_le_one, trivial,
    price_nonneg_of_probs_in_unit 1 ⟨.call, .eu, 3, 100⟩
      (.leaf ⟨5, 0, 0, 0, 0, 0, 0, 0, 0⟩) zero_le_one trivial⟩

/-- Witness for C7 (amended) on a concrete one-node lattice. -/
theorem american_ge_european_of_probs_in_unit_witness :
    (0 : ℝ) ≤ 1 ∧
    (PTree.leaf ⟨7, 0, 0, 0, 0, 0, 0, 0, 0⟩).probsInUnit ∧
    (PTree.leaf (⟨7, 0, 0, 0, 0, 0, 0, 0, 0⟩ : NodeData)).price 1
        ⟨.call, .eu, 2, 50⟩ ≤
      (PTree.leaf (⟨7, 0, 0, 0, 0, 0, 0, 0, 0⟩ : NodeData)).price 1
        ⟨.call, .us, 2, 50⟩ :=
  ⟨zero_le_one, trivial,
    american_ge_european_of_probs_in_unit 1 .call 2 50
      (.leaf ⟨7, 0, 0, 0, 0, 0, 0, 0, 0⟩) zero_le_one trivial⟩
